import Mathlib

/-!
Verification of the job-autopilot adapter/pipeline core against its
natural-language specification.  The JavaScript sources are shallowly
embedded: pure decision logic becomes Lean functions, the SQLite-backed
tracker becomes explicit state passing over a list of rows, browser pages
become explicit page-state values, and thrown exceptions become `Except`.
-/

deriving instance DecidableEq for Except

/-! ## JavaScript string/value primitives -/

/-- JS truthiness for a possibly-absent string: `undefined`/`null`/`""` are falsy. -/
def truthyS : Option String → Bool
  | none => false
  | some s => s ≠ ""

/-- JS `a || b` on possibly-absent strings. -/
def jsOrS (a b : Option String) : Option String :=
  if truthyS a then a else b

/-- JS `a || d` where `d` is a present default string (e.g. `options.mode || 'assisted'`). -/
def jsOrStr (a : Option String) (d : String) : String :=
  match a with
  | none => d
  | some s => if s = "" then d else s

/-- Kernel-computable lower-casing (JS `toLowerCase` restricted to ASCII, which
is all the source compares). -/
def toLowerStr (s : String) : String :=
  ⟨s.data.map Char.toLower⟩

/-- Kernel-computable `trim` (JS `String.prototype.trim`). -/
def trimStr (s : String) : String :=
  ⟨((s.data.dropWhile Char.isWhitespace).reverse.dropWhile Char.isWhitespace).reverse⟩

/-- Kernel-computable `s.substring(0, n)`. -/
def takeStr (s : String) (n : Nat) : String :=
  ⟨s.data.take n⟩

/-- Split on a single-character separator (JS `String.prototype.split`). -/
def splitChar (sep : Char) : List Char → List (List Char)
  | [] => [[]]
  | c :: cs =>
    if c = sep then [] :: splitChar sep cs
    else
      match splitChar sep cs with
      | [] => [[c]]
      | h :: t => (c :: h) :: t

def splitOnChar (s : String) (sep : Char) : List String :=
  (splitChar sep s.data).map (fun l => ⟨l⟩)

/-- Kernel-computable `parts.join(sep)`. -/
def joinWith (sep : String) (parts : List String) : String :=
  match parts with
  | [] => ""
  | h :: t => t.foldl (fun acc p => acc ++ sep ++ p) h

/-- Whether `pat` occurs at the start of `hay` (character-list version). -/
def startsWithList : List Char → List Char → Bool
  | _, [] => true
  | [], _ :: _ => false
  | c :: cs, p :: ps => c = p && startsWithList cs ps

/-- Whether `pat` occurs anywhere inside `hay` (JS `String.prototype.includes`). -/
def containsList : List Char → List Char → Bool
  | [], pat => pat.isEmpty
  | h :: t, pat => startsWithList (h :: t) pat || containsList t pat

/-- JS `s.includes(pat)`, also the model of the literal-only regexes
(`/boards\.greenhouse\.io/.test(url)` etc.) used by `canHandleUrl`. -/
def containsSub (s pat : String) : Bool :=
  containsList s.data pat.data

/-- JS `value && keywords.some(k => value.toLowerCase().includes(k))`
(`matchesKeyword` in src/src/adapters/generic-form.js). -/
def matchesKeyword (value : String) (keywords : List String) : Bool :=
  value ≠ "" && keywords.any (fun k => containsSub (toLowerStr value) k)

/-! ## Browser session helper (src/browser.js, second part of part_004)

`detectFriction` scans the page content for anti-automation signals. -/

/-- Embeds `detectFriction(page)` from src/browser.js: substring checks over the
lower-cased page content, in source order. -/
def detectFriction (content : String) : Option String :=
  let lower := toLowerStr content
  if containsSub lower "captcha" || containsSub lower "recaptcha" then some "captcha"
  else if containsSub lower "two-factor" || containsSub lower "2fa" ||
      containsSub lower "verification code" then some "two-factor"
  else if containsSub lower "are you human" then some "bot-check"
  else none

/-! ## Generic form apply adapter (src/src/adapters/generic-form.js)

A page is embedded as the data the adapter's DOM queries observe: the page
content (for friction detection), the text/textarea inputs, the file inputs
(combined name/id/aria-label, lower-cased), and the visible button texts.
A navigation failure after retries is the thrown message in `navError`. -/

structure Profile where
  firstName : Option String := none
  lastName : Option String := none
  name : Option String := none
  email : Option String := none
  phone : Option String := none
  location : Option String := none
  linkedin : Option String := none
  github : Option String := none

structure GInput where
  typeAttr : String := ""
  ariaLabel : String := ""
  placeholder : String := ""
  nameAttr : String := ""
  idAttr : String := ""
  value : String := ""

structure GPage where
  navError : Option String := none
  content : String := ""
  inputs : List GInput := []
  fileInputs : List String := []
  buttons : List String := []

structure ApplyOptions where
  mode : Option String := none
  dryRun : Option Bool := none
  profile : Profile := {}
  resumePath : Option String := none
  maxApps : Option Nat := none

structure FieldRule where
  key : String
  keywords : List String
  value : Option String

/-- The `fieldMap` table of `fillTextFields`, derived from the profile exactly as
in the source (including the `name`-splitting fallbacks for first/last name). -/
def profileFieldMap (p : Profile) : List FieldRule :=
  [ { key := "firstName", keywords := ["first name", "first_name", "given name"],
      value := jsOrS p.firstName (p.name.map (fun n => (splitOnChar n ' ').headD "")) },
    { key := "lastName", keywords := ["last name", "last_name", "surname", "family name"],
      value := jsOrS p.lastName (p.name.map (fun n => joinWith " " ((splitOnChar n ' ').drop 1))) },
    { key := "name", keywords := ["full name", "name"], value := p.name },
    { key := "email", keywords := ["email"], value := p.email },
    { key := "phone", keywords := ["phone", "mobile"], value := p.phone },
    { key := "location", keywords := ["location", "city", "address"], value := p.location },
    { key := "linkedin", keywords := ["linkedin"], value := p.linkedin },
    { key := "github", keywords := ["github", "portfolio", "website"], value := p.github } ]

def skipTypes : List String := ["hidden", "checkbox", "radio", "file", "submit", "button"]

def inputCombined (i : GInput) : String :=
  toLowerStr (i.ariaLabel ++ " " ++ i.placeholder ++ " " ++ i.nameAttr ++ " " ++ i.idAttr)

/-- One iteration of the `fillTextFields` input loop: skip excluded input types,
skip inputs that already hold a value, otherwise assign the first field-map rule
with a truthy value whose keyword occurs in the combined label text. -/
def fillOne (rules : List FieldRule) (i : GInput) : GInput × Option (String × String) :=
  if skipTypes.contains i.typeAttr then (i, none)
  else if i.value ≠ "" then (i, none)
  else
    match rules.find? (fun f =>
        truthyS f.value && f.keywords.any (fun k => containsSub (inputCombined i) k)) with
    | some f => ({ i with value := f.value.getD "" }, some (f.key, f.value.getD ""))
    | none => (i, none)

/-- Embeds `fillTextFields(page, profile)`: returns the updated inputs and the
list of (field key, value) assignments performed. -/
def fillTextFields (inputs : List GInput) (p : Profile) : List GInput × List (String × String) :=
  let res := inputs.map (fillOne (profileFieldMap p))
  (res.map (fun r => r.1), res.filterMap (fun r => r.2))

/-- Embeds `uploadResume(page, resumePath)`: false when no resume path, else
whether some file input's combined attributes match resume/cv. -/
def uploadResume (fileInputs : List String) (resumePath : Option String) : Bool :=
  truthyS resumePath && fileInputs.any (fun n => matchesKeyword n ["resume", "cv"])

/-- Embeds `clickSubmitIfAllowed(page, x7bmode, dryRunx7d)`: returns whether the
submit button was clicked.  The early return fires unless `mode` is exactly
`auto` and `dryRun` is false; otherwise the first button whose text contains
submit/apply is clicked. -/
def clickSubmitIfAllowed (buttons : List String) (mode : String) (dryRun : Bool) : Bool :=
  if mode ≠ "auto" || dryRun then false
  else buttons.any (fun b => containsSub (toLowerStr b) "submit" || containsSub (toLowerStr b) "apply")

/-- A terminal apply outcome as returned from `applyAssisted`, with the DOM side
effects (fields written, submit clicked) made explicit outputs. -/
structure GenericOutcome where
  status : String
  reason : Option String := none
  notes : Option String := none
  artifacts : List String := []
  filled : List (String × String) := []
  submitClicked : Bool := false

namespace GenericFormApplyAdapter

/-- Embeds `GenericFormApplyAdapter.applyAssisted(job, options)`.  Artifact file
names carry a timestamp in the source; here they are fixed labels, preserving
the count (`captureArtifacts` always yields a screenshot path and an HTML path). -/
def applyAssisted (page : GPage) (options : ApplyOptions) : GenericOutcome :=
  match page.navError with
  | some msg =>
    { status := "failed", reason := some msg, artifacts := ["error.png", "error.html"] }
  | none =>
    match detectFriction page.content with
    | some friction =>
      { status := "blocked", reason := some friction,
        artifacts := ["friction.png", "friction.html"] }
    | none =>
      let fillRes := fillTextFields page.inputs options.profile
      let resumeUploaded := uploadResume page.fileInputs options.resumePath
      let submitted := clickSubmitIfAllowed page.buttons
        (jsOrStr options.mode "assisted") (options.dryRun.getD true)
      { status := if submitted then "submitted" else "needs_review",
        notes := some (if resumeUploaded then "Resume uploaded" else "Resume not uploaded"),
        artifacts := ["review.png", "review.html"],
        filled := fillRes.2,
        submitClicked := submitted }

end GenericFormApplyAdapter

/-! ## Application tracker (src/application-tracker.js, first document)

Rows of the `applications` table are embedded structurally: serialized JSON
columns (`metadata`, `artifact_paths`) are kept as the structured values they
serialize, since `JSON.stringify`/`JSON.parse` pair bijectively on them. -/

/-- UTF-8 encoding of one code point (what `Buffer.from(url)` produces per char). -/
def charUtf8 (c : Char) : List Nat :=
  let n := c.toNat
  if n < 128 then [n]
  else if n < 2048 then [192 + n / 64, 128 + n % 64]
  else if n < 65536 then [224 + n / 4096, 128 + n / 64 % 64, 128 + n % 64]
  else [240 + n / 262144, 128 + n / 4096 % 64, 128 + n / 64 % 64, 128 + n % 64]

def utf8Bytes (s : String) : List Nat :=
  s.data.foldr (fun c acc => charUtf8 c ++ acc) []

def base64Alphabet : List Char :=
  "ABCDEFGHIJKLMNOPQRSTUVWXYZabcdefghijklmnopqrstuvwxyz0123456789+/".data

def b64Char (n : Nat) : Char :=
  base64Alphabet.getD n 'A'

/-- Standard base64 of a byte list (semantics of `Buffer.toString('base64')`). -/
def base64EncodeList : List Nat → List Char
  | [] => []
  | [b1] => [b64Char (b1 / 4), b64Char (b1 % 4 * 16), '=', '=']
  | [b1, b2] => [b64Char (b1 / 4), b64Char (b1 % 4 * 16 + b2 / 16), b64Char (b2 % 16 * 4), '=']
  | b1 :: b2 :: b3 :: rest =>
    b64Char (b1 / 4) :: b64Char (b1 % 4 * 16 + b2 / 16) ::
      b64Char (b2 % 16 * 4 + b3 / 64) :: b64Char (b3 % 64) :: base64EncodeList rest

/-- JS `Buffer.from(s).toString('base64').slice(0, 16)`. -/
def base64Slice16 (s : String) : String :=
  ⟨(base64EncodeList (utf8Bytes s)).take 16⟩

/-- The argument object accepted by `ApplicationTracker.addJob`. -/
structure AddJobInput where
  job_id : Option String := none
  job_url : Option String := none
  url : Option String := none
  platform : Option String := none
  source : Option String := none
  company : Option String := none
  title : Option String := none
  location : Option String := none
  status : Option String := none
  metadata : Option (List (String × String)) := none

/-- One row of the `applications` table (the columns the pipeline writes). -/
structure JobRow where
  job_id : Option String := none
  job_url : Option String := none
  platform : Option String := none
  company : Option String := none
  title : Option String := none
  location : Option String := none
  status : Option String := none
  status_detail : Option String := none
  failure_category : Option String := none
  notes : Option String := none
  enriched_at : Option String := none
  prepared_at : Option String := none
  applied_at : Option String := none
  updated_at : Option String := none
  resume_path : Option String := none
  cover_letter_path : Option String := none
  artifact_paths : Option (List String) := none
  metadata : Option (List (String × String)) := none
  deriving DecidableEq

/-- The tracker is its table contents, in insertion order. -/
abbrev Tracker := List JobRow

structure AddResult where
  jobId : String
  inserted : Bool

/-- The derived job id:
`${job.platform || 'job'}-${Buffer.from(job.job_url || job.url || '').toString('base64').slice(0, 16)}`. -/
def derivedJobId (j : AddJobInput) : String :=
  jsOrStr j.platform "job" ++ "-" ++ base64Slice16 (jsOrStr (jsOrS j.job_url j.url) "")

/-- The id finally used by `addJob`: `job.job_id || derived`. -/
def jobIdFor (j : AddJobInput) : String :=
  jsOrStr j.job_id (derivedJobId j)

/-- The row `addJob` inserts when the id is free. -/
def insertedRow (j : AddJobInput) : JobRow :=
  { job_id := some (jobIdFor j),
    job_url := jsOrS j.job_url j.url,
    platform := jsOrS j.platform j.source,
    company := j.company,
    title := j.title,
    location := j.location,
    status := some (jsOrStr j.status "discovered"),
    metadata := some (j.metadata.getD []) }

namespace ApplicationTracker

/-- Embeds `addJob`: `INSERT OR IGNORE` keyed by the unique `job_id` column. -/
def addJob (t : Tracker) (j : AddJobInput) : Tracker × AddResult :=
  let jobId := jobIdFor j
  if t.any (fun row => row.job_id = some jobId) then
    (t, { jobId := jobId, inserted := false })
  else
    (t ++ [insertedRow j], { jobId := jobId, inserted := true })

/-- The named column patches the pipeline passes to `updateJob` (absent = not patched). -/
structure JobUpdates where
  company : Option (Option String) := none
  title : Option (Option String) := none
  location : Option (Option String) := none
  status : Option String := none
  status_detail : Option String := none
  failure_category : Option String := none
  enriched_at : Option String := none
  prepared_at : Option String := none
  applied_at : Option String := none
  resume_path : Option (Option String) := none
  cover_letter_path : Option (Option String) := none
  artifact_paths : Option (List String) := none
  metadata : Option (List (String × String)) := none

def patchRow (row : JobRow) (u : JobUpdates) (now : String) : JobRow :=
  { row with
    company := u.company.getD row.company,
    title := u.title.getD row.title,
    location := u.location.getD row.location,
    status := match u.status with | some s => some s | none => row.status,
    status_detail := match u.status_detail with | some s => some s | none => row.status_detail,
    failure_category := match u.failure_category with | some s => some s | none => row.failure_category,
    enriched_at := match u.enriched_at with | some s => some s | none => row.enriched_at,
    prepared_at := match u.prepared_at with | some s => some s | none => row.prepared_at,
    applied_at := match u.applied_at with | some s => some s | none => row.applied_at,
    resume_path := u.resume_path.getD row.resume_path,
    cover_letter_path := u.cover_letter_path.getD row.cover_letter_path,
    artifact_paths := match u.artifact_paths with | some a => some a | none => row.artifact_paths,
    metadata := match u.metadata with | some m => some m | none => row.metadata,
    updated_at := some now }

/-- Embeds `updateJob(jobId, updates)`: patches named fields of the row whose
`job_id` matches and always stamps `updated_at`. -/
def updateJob (t : Tracker) (jobId : String) (u : JobUpdates) (now : String) : Tracker :=
  t.map (fun row => if row.job_id = some jobId then patchRow row u now else row)

/-- Embeds `getJob(jobId)`. -/
def getJob (t : Tracker) (jobId : String) : Option JobRow :=
  t.find? (fun row => row.job_id = some jobId)

end ApplicationTracker

def cexJobA : AddJobInput := { job_url := some "https://example.com/a", platform := some "generic" }

def cexJobB : AddJobInput := { job_url := some "https://example.com/b", platform := some "generic" }

/-! ## Adapter registry (src/src/adapters/registry.js) and default adapters
(src/src/adapters/index.js = part_009, greenhouse/lever = part_010, workday in
generic-form.js's second document, linkedin = part_008)

Adapters are embedded as descriptors: id, URL predicate, capability flags, and
— for job sources — the enrichment call as an `Except`-valued function (network
and parse failures are thrown errors in the source). -/

structure EnrichResult where
  job_url : Option String := none
  title : Option String := none
  company : Option String := none
  location : Option String := none
  description : Option String := none
  platform : Option String := none

structure JobSourceAdapterDesc where
  id : String
  canHandleUrl : String → Bool
  supportsDiscovery : Bool := false
  supportsEnrichment : Bool := false
  enrich : String → Except String EnrichResult := fun _ => Except.error "enrich() not implemented"

structure ApplyAdapterDesc where
  id : String
  canHandleUrl : String → Bool

structure AdapterRegistry where
  jobSources : List JobSourceAdapterDesc := []
  applyAdapters : List ApplyAdapterDesc := []

/-- Embeds `AdapterRegistry.getJobSourceForUrl`: first match in registration order. -/
def AdapterRegistry.getJobSourceForUrl (r : AdapterRegistry) (url : String) :
    Option JobSourceAdapterDesc :=
  r.jobSources.find? (fun a => a.canHandleUrl url)

/-- Embeds `AdapterRegistry.getApplyAdapterForUrl`. -/
def AdapterRegistry.getApplyAdapterForUrl (r : AdapterRegistry) (url : String) :
    Option ApplyAdapterDesc :=
  r.applyAdapters.find? (fun a => a.canHandleUrl url)

/-- Greenhouse job-source adapter descriptor; the enrichment network call is a
parameter (it is an HTTP fetch in the source). -/
def greenhouseSource (fetch : String → Except String EnrichResult) : JobSourceAdapterDesc :=
  { id := "greenhouse-source",
    canHandleUrl := fun url => containsSub url "boards.greenhouse.io",
    supportsDiscovery := true, supportsEnrichment := true, enrich := fetch }

def leverSource (fetch : String → Except String EnrichResult) : JobSourceAdapterDesc :=
  { id := "lever-source",
    canHandleUrl := fun url => containsSub url "jobs.lever.co",
    supportsDiscovery := true, supportsEnrichment := true, enrich := fetch }

def workdaySource (fetch : String → Except String EnrichResult) : JobSourceAdapterDesc :=
  { id := "workday-source",
    canHandleUrl := fun url => containsSub url "myworkdayjobs.com",
    supportsEnrichment := true, enrich := fetch }

def greenhouseApply : ApplyAdapterDesc :=
  { id := "greenhouse-apply", canHandleUrl := fun url => containsSub url "boards.greenhouse.io" }

def leverApply : ApplyAdapterDesc :=
  { id := "lever-apply", canHandleUrl := fun url => containsSub url "jobs.lever.co" }

def workdayApply : ApplyAdapterDesc :=
  { id := "workday-apply", canHandleUrl := fun url => containsSub url "myworkdayjobs.com" }

def linkedInApply : ApplyAdapterDesc :=
  { id := "linkedin-apply", canHandleUrl := fun url => containsSub url "linkedin.com/jobs" }

def genericFormApply : ApplyAdapterDesc :=
  { id := "generic-form", canHandleUrl := fun _ => true }

/-- Embeds `createDefaultRegistry()` (part_009): platform adapters registered
before the generic fallback; enrichment fetches are parameters. -/
def createDefaultRegistry
    (ghFetch leverFetch wdFetch : String → Except String EnrichResult :=
      fun _ => Except.error "network unavailable") : AdapterRegistry :=
  { jobSources := [greenhouseSource ghFetch, leverSource leverFetch, workdaySource wdFetch],
    applyAdapters := [greenhouseApply, leverApply, workdayApply, linkedInApply, genericFormApply] }

/-! ## Pipeline: discovery (pipeline.js, second document of application-tracker.test.js) -/

/-- JS `s.startsWith(pat)`. -/
def jsStartsWith (s pat : String) : Bool :=
  startsWithList s.data pat.data

/-- First-occurrence replacement by the empty string
(JS `id.replace('-source', '')`). -/
def replaceFirstList : List Char → List Char → List Char
  | [], _ => []
  | c :: cs, pat =>
    if startsWithList (c :: cs) pat && !pat.isEmpty then (c :: cs).drop pat.length
    else c :: replaceFirstList cs pat

def replaceFirstStr (s pat : String) : String :=
  if pat = "" then s else ⟨replaceFirstList s.data pat.data⟩

/-- The platform label `discoverFromFile` stores:
`source?.id?.replace('-source', '') || 'generic'`. -/
def platformForUrl (registry : AdapterRegistry) (url : String) : String :=
  match registry.getJobSourceForUrl url with
  | some a => jsOrStr (some (replaceFirstStr a.id "-source")) "generic"
  | none => "generic"

/-- The lines kept by `discoverFromFile`: split on newlines, trim, drop blanks
and `#` comments. -/
def discoverUrls (content : String) : List String :=
  ((splitOnChar content '\n').map trimStr).filter
    (fun l => l ≠ "" && !(jsStartsWith l "#"))

structure DiscoverOutcome where
  url : String
  jobId : String
  inserted : Bool

def discoverInput (registry : AdapterRegistry) (url : String) : AddJobInput :=
  { job_url := some url, platform := some (platformForUrl registry url),
    status := some "discovered" }

/-- The per-URL loop body of `discoverFromFile`. -/
def discoverLoop (registry : AdapterRegistry) :
    List String → Tracker → List DiscoverOutcome × Tracker
  | [], t => ([], t)
  | url :: rest, t =>
    let r := ApplicationTracker.addJob t (discoverInput registry url)
    let res := discoverLoop registry rest r.1
    ({ url := url, jobId := r.2.jobId, inserted := r.2.inserted } :: res.1, res.2)

/-- Embeds `discoverFromFile(inputPath, x7bregistry, trackerx7d)` with the file
contents passed directly. -/
def discoverFromFile (content : String) (registry : AdapterRegistry) (t : Tracker) :
    List DiscoverOutcome × Tracker :=
  discoverLoop registry (discoverUrls content) t

def c8File : String :=
  "https://boards.greenhouse.io/acme/jobs/123\n# a comment line\n\nhttps://jobs.lever.co/acme/engineer\nhttps://example.com/careers/42"

/-! ## Pipeline: enrichment (pipeline.js `enrichJob`) -/

/-- Embeds the resolution step shared by the stage functions:
`jobIdOrUrl.includes('http') ? findJobByUrl(...) : tracker.getJob(...)`.
(The source's `findJobByUrl` scans `listJobs(2000)`; the model scans the whole
table, which agrees whenever the table fits the cap.) -/
def resolveJob (t : Tracker) (idOrUrl : String) : Option JobRow :=
  if containsSub idOrUrl "http" then t.find? (fun row => row.job_url = some idOrUrl)
  else ApplicationTracker.getJob t idOrUrl

/-- JS `x7b...old, key: vx7d` followed by `JSON.stringify`: every old key is
kept except `key`, which is set to `v` — and dropped entirely when `v` is
`undefined` (stringify omits undefined values). -/
def removeKey (k : String) : List (String × String) → List (String × String)
  | [] => []
  | p :: rest => if p.1 = k then removeKey k rest else p :: removeKey k rest

def replaceKey (k v : String) : List (String × String) → List (String × String)
  | [] => []
  | p :: rest => (if p.1 = k then (k, v) else p) :: replaceKey k v rest

def hasKey (k : String) : List (String × String) → Bool
  | [] => false
  | p :: rest => p.1 = k || hasKey k rest

def spreadSetKey (m : List (String × String)) (k : String) (v : Option String) :
    List (String × String) :=
  match v with
  | none => removeKey k m
  | some v => if hasKey k m then replaceKey k v m else m ++ [(k, v)]

/-- Lookup in the metadata bag. -/
def lookupMeta (k : String) : List (String × String) → Option String
  | [] => none
  | p :: rest => if p.1 = k then some p.2 else lookupMeta k rest

/-- The `tracker.updateJob` patch `enrichJob` issues. -/
def enrichUpdates (job : JobRow) (enriched : EnrichResult) (now : String) :
    ApplicationTracker.JobUpdates :=
  { company := some (jsOrS enriched.company job.company),
    title := some (jsOrS enriched.title job.title),
    location := some (jsOrS enriched.location job.location),
    metadata := some (spreadSetKey (job.metadata.getD []) "description" enriched.description),
    status := some "enriched",
    enriched_at := some now }

/-- Embeds `enrichJob(jobIdOrUrl, x7bregistry, trackerx7d)`.  A missing job
throws `Job not found`; an adapter without enrichment support returns the job
untouched; the adapter's network call may throw, and `enrichJob` does not catch
it.  The source returns the transient spread `x7b...job, ...enrichedx7d`; the
model returns the stored row, which is what later stages read. -/
def enrichJob (idOrUrl : String) (registry : AdapterRegistry) (t : Tracker) (now : String) :
    Except String (Tracker × JobRow) := do
  let job ← match resolveJob t idOrUrl with
    | some j => Except.ok j
    | none => Except.error "Job not found"
  match registry.getJobSourceForUrl (job.job_url.getD "") with
  | none => Except.ok (t, job)
  | some adapter =>
    if !adapter.supportsEnrichment then Except.ok (t, job)
    else do
      let enriched ← adapter.enrich (job.job_url.getD "")
      let patched := ApplicationTracker.patchRow job (enrichUpdates job enriched now) now
      Except.ok (ApplicationTracker.updateJob t (job.job_id.getD "")
        (enrichUpdates job enriched now) now, patched)

/-- A job-source stub whose enrichment call returns a fixed outcome. -/
def oracleSource (outcome : Except String EnrichResult) : JobSourceAdapterDesc :=
  { id := "test-source", canHandleUrl := fun _ => true,
    supportsEnrichment := true, enrich := fun _ => outcome }

/-! ### Claim C7: merge-not-replace on enrichment -/

def c7Job : JobRow :=
  { job_id := some "job-1", job_url := some "https://example.com/j",
    title := some "Engineer", company := some "Acme", location := some "Remote",
    status := some "enriched",
    metadata := some [("description", "Great role"), ("salary", "100k")] }

def c7Enr : EnrichResult :=
  { title := some "Engineer", company := some "", location := some "",
    description := some "" }

/-! ## LinkedIn auto-apply (part_002 `LinkedInAutoApply`) and its adapter (part_008)

The browser flow is embedded as the data the module's page queries observe:
the job page content, the Easy Apply availability checks, and — for the
multi-step form loop — the visible button texts presented at each step
(`formPages i` is what the page shows on the loop's i-th visit). -/

/-- The per-attempt cap of the `fillEasyApplyForm` while-loop
(`const maxAttempts = 10`). -/
def maxAttempts : Nat := 10

/-- Embeds `findButton(texts)`: for each search text in order, the first
visible button whose trimmed lower-cased text equals or starts with it. -/
def findButton (texts buttons : List String) : Option String :=
  match texts with
  | [] => none
  | t :: rest =>
    match buttons.find? (fun b =>
        startsWithList (toLowerStr (trimStr b)).data (toLowerStr t).data) with
    | some b => some b
    | none => findButton rest buttons

/-- The `buttonsInfo` debug list: visible button texts, trimmed, truncated to
30 characters, blanks dropped, first 10 kept. -/
def buttonsInfoOf (buttons : List String) : List String :=
  ((buttons.map (fun b => takeStr (trimStr b) 30)).filter (fun t => t ≠ "")).take 10

structure LIResult where
  success : Bool := false
  error : Option String := none
  requiresReview : Bool := false
  blocked : Bool := false
  rateLimited : Bool := false
  skipReason : Option String := none

structure LIOptions where
  autoSubmit : Bool := false
  dryRun : Bool := false
  maxApps : Nat := 1

/-- The `currentButtonText` computed by the stuck-form heuristic. -/
def currentButtonTextOf (submitFound nextFound : Bool) (binfo : List String) : String :=
  if submitFound then "submit"
  else if nextFound then
    (binfo.find? (fun b => ["next", "review", "continue"].contains (toLowerStr b))).getD ""
  else ""

/-- The while-loop of `fillEasyApplyForm`, with the external page evolution as
the oracle `pages` and the iteration count returned for the bound proofs.
State is (remaining fuel, page index, lastButtonText, sameButtonCount). -/
def easyApplyLoop (autoSubmit dryRun : Bool) (pages : Nat → List String)
    (submitSucceeds : Bool) : Nat → Nat → String → Nat → LIResult × Nat
  | 0, _, _, _ => ({ error := some "Exceeded max form attempts" }, 0)
  | fuel + 1, idx, lastBtn, sameCount =>
    let buttons := pages idx
    let binfo := buttonsInfoOf buttons
    let submitBtn := findButton ["Submit application", "Submit"] buttons
    let nextBtn := if submitBtn.isSome then none
      else findButton ["Next", "Continue", "Review"] buttons
    let currentBtn := currentButtonTextOf submitBtn.isSome nextBtn.isSome binfo
    let same := currentBtn ≠ "" && currentBtn = lastBtn
    if same && sameCount + 1 ≥ 3 then
      ({ error := some "Form stuck - likely missing required fields" }, 1)
    else
      let sameCount2 := if same then sameCount + 1 else 0
      let lastBtn2 := if same then lastBtn else currentBtn
      if submitBtn.isSome then
        if !autoSubmit || dryRun then ({ requiresReview := true }, 1)
        else ({ success := submitSucceeds }, 1)
      else if nextBtn.isSome then
        let r := easyApplyLoop autoSubmit dryRun pages submitSucceeds fuel (idx + 1)
          lastBtn2 sameCount2
        (r.1, r.2 + 1)
      else ({ error := some "No next or submit button found" }, 1)

/-- The observable browser state of one LinkedIn apply attempt. -/
structure LIFlow where
  navError : Option String := none
  pageContent : String := ""
  easyApply : Bool := true
  alreadyApplied : Bool := false
  clickOk : Bool := true
  loginWall : Bool := false
  modalAppears : Bool := true
  formPages : Nat → List String := fun _ => []
  submitSucceeds : Bool := true

/-- Embeds `fillEasyApplyForm()` including its iteration count: login-wall and
missing-modal early exits, then the bounded next/submit loop. -/
def fillEasyApplyFormRun (opts : LIOptions) (flow : LIFlow) : LIResult × Nat :=
  if flow.loginWall then ({ error := some "Login wall detected" }, 0)
  else if !flow.modalAppears then ({ error := some "Easy Apply modal did not appear" }, 0)
  else easyApplyLoop opts.autoSubmit opts.dryRun flow.formPages flow.submitSucceeds
    maxAttempts 0 "" 0

/-- Embeds `applyToCurrentJob()`: session cap, friction check, Easy Apply
availability, already-applied check, button click, then the form loop. -/
def applyToCurrentJob (opts : LIOptions) (flow : LIFlow)
    (applicationsThisSession : Nat) : LIResult :=
  if opts.maxApps ≤ applicationsThisSession then
    { error := some "Daily application limit reached", rateLimited := true }
  else
    match detectFriction flow.pageContent with
    | some f => { error := some ("Blocked by " ++ f), blocked := true }
    | none =>
      if !flow.easyApply then
        { error := some "Not an Easy Apply job", skipReason := some "external" }
      else if flow.alreadyApplied then
        { error := some "Already applied", skipReason := some "already_applied" }
      else if !flow.clickOk then
        { error := some "Could not click Easy Apply button" }
      else (fillEasyApplyFormRun opts flow).1

/-- Embeds `applyToJob(jobUrl)`: navigation errors become a failed result,
otherwise `applyToCurrentJob` runs on the fresh session (0 applications so far). -/
def applyToJob (opts : LIOptions) (flow : LIFlow) : LIResult :=
  match flow.navError with
  | some m => { error := some m }
  | none => applyToCurrentJob opts flow 0

/-- The uniform outcome shape `applyAssisted` hands back to the pipeline. -/
structure AdapterOutcome where
  status : String
  reason : Option String := none
  notes : Option String := none
  artifacts : List String := []

/-- The generic adapter's outcome viewed through the pipeline's fields. -/
def GenericOutcome.toAdapterOutcome (o : GenericOutcome) : AdapterOutcome :=
  { status := o.status, reason := o.reason, notes := o.notes, artifacts := o.artifacts }

/-- One LinkedIn adapter invocation's external state: login outcome plus the
browser flow. -/
structure LinkedInRun where
  loginOk : Bool := true
  flow : LIFlow := {}

namespace LinkedInApplyAdapter

/-- Embeds `LinkedInApplyAdapter.applyAssisted(job, options)` (part_008):
`autoSubmit` is `options.mode === 'auto'`, `dryRun` defaults to false,
`maxApps` to 1; a failed login is `blocked`/`login-required`; a
`requiresReview` result maps to `needs_review`; otherwise `submitted` on
success and `failed` with the result's error as reason.  No branch attaches
artifacts. -/
def applyAssisted (options : ApplyOptions) (run : LinkedInRun) : AdapterOutcome :=
  let opts : LIOptions :=
    { autoSubmit := options.mode = some "auto",
      dryRun := options.dryRun.getD false,
      maxApps := match options.maxApps with | some n => if n = 0 then 1 else n | none => 1 }
  if !run.loginOk then { status := "blocked", reason := some "login-required" }
  else
    let result := applyToJob opts run.flow
    if result.requiresReview then
      { status := "needs_review", notes := some "LinkedIn Easy Apply paused before submit." }
    else
      { status := if result.success then "submitted" else "failed", reason := result.error }

end LinkedInApplyAdapter

/-! ## Pipeline: apply (pipeline.js `applyJob`) and the CLI batch loop (part_001 `cmdApply`) -/

structure Docs where
  resumePdfPath : Option String := none
  resumeTexPath : Option String := none
  coverLetterPath : Option String := none

/-- The `tracker.updateJob` patch `applyJob` issues after the adapter returns. -/
def applyUpdates (result : AdapterOutcome) (docs : Docs) (now : String) :
    ApplicationTracker.JobUpdates :=
  { status := some (jsOrStr (some result.status) "failed"),
    status_detail := some (jsOrStr result.notes ""),
    failure_category := some (jsOrStr result.reason ""),
    applied_at := some now,
    resume_path := some (jsOrS docs.resumePdfPath docs.resumeTexPath),
    cover_letter_path := some docs.coverLetterPath,
    artifact_paths := some result.artifacts }

/-- The options object `applyJob` hands to the selected adapter. -/
def pipelineApplyOptions (profile : Profile) (docs : Docs) (mode : String) (dryRun : Bool) :
    ApplyOptions :=
  { profile := profile, resumePath := jsOrS docs.resumePdfPath docs.resumeTexPath,
    mode := some mode, dryRun := some dryRun }

/-- Embeds `applyJob(jobIdOrUrl, x7bregistry, tracker, config, mode, dryRunx7d)`.
Document building may throw and is not caught; the selected adapter's
`applyAssisted` run is the function `runAdapter` (its browser session is
external state); the resulting status/notes/reason/artifacts are written back. -/
def applyJob (idOrUrl : String) (registry : AdapterRegistry) (t : Tracker)
    (buildDocs : Except String Docs)
    (runAdapter : ApplyAdapterDesc → ApplyOptions → AdapterOutcome)
    (profile : Profile) (mode : String) (dryRun : Bool) (now : String) :
    Except String (Tracker × AdapterOutcome) := do
  let job ← match resolveJob t idOrUrl with
    | some j => Except.ok j
    | none => Except.error "Job not found"
  let docs ← buildDocs
  let adapter ← match registry.getApplyAdapterForUrl (job.job_url.getD "") with
    | some a => Except.ok a
    | none =>
      match registry.applyAdapters.find? (fun item => item.id = "generic-form") with
      | some a => Except.ok a
      | none => Except.error "No apply adapter found."
  let result := runAdapter adapter (pipelineApplyOptions profile docs mode dryRun)
  Except.ok (ApplicationTracker.updateJob t (job.job_id.getD "")
    (applyUpdates result docs now) now, result)

/-- The per-job loop body of `cmdApply --batch`: no try/catch around `applyJob`. -/
def batchLoop (registry : AdapterRegistry) (buildDocsFor : String → Except String Docs)
    (runAdapter : ApplyAdapterDesc → ApplyOptions → AdapterOutcome)
    (profile : Profile) (mode : String) (dryRun : Bool) (now : String) :
    List JobRow → Tracker → Except String Tracker
  | [], t => Except.ok t
  | job :: rest, t => do
    let r ← applyJob (job.job_id.getD "") registry t (buildDocsFor (job.job_id.getD ""))
      runAdapter profile mode dryRun now
    batchLoop registry buildDocsFor runAdapter profile mode dryRun now rest r.1

/-- Embeds the batch branch of `cmdApply`: pull up to `limit` jobs in status
`prepared` (a snapshot taken before the loop) and apply to each sequentially. -/
def cmdApplyBatch (limit : Nat) (registry : AdapterRegistry)
    (buildDocsFor : String → Except String Docs)
    (runAdapter : ApplyAdapterDesc → ApplyOptions → AdapterOutcome)
    (profile : Profile) (mode : String) (dryRun : Bool) (now : String)
    (t : Tracker) : Except String Tracker :=
  batchLoop registry buildDocsFor runAdapter profile mode dryRun now
    ((t.filter (fun row => row.status = some "prepared")).take limit) t

/-- A run of the generic adapter against a fixed page. -/
def genericRunAdapter (page : GPage) : ApplyAdapterDesc → ApplyOptions → AdapterOutcome :=
  fun _ o => (GenericFormApplyAdapter.applyAssisted page o).toAdapterOutcome

def c3Flow : LIFlow :=
  { pageContent := "Please enter your verification code to continue" }

def c5Flow : LIFlow :=
  { formPages := fun _ => ["Submit application"] }

def c5Job : JobRow :=
  { job_id := some "job-c5", job_url := some "https://www.linkedin.com/jobs/view/123",
    status := some "prepared" }

/-! ### Claim C4: exception conversion and batch continuation -/

def c4Job : JobRow :=
  { job_id := some "job-c4", job_url := some "https://x.example/1",
    status := some "enriched" }

def c4JobA : JobRow :=
  { job_id := some "a", job_url := some "https://x.example/a", status := some "prepared" }

def c4JobB : JobRow :=
  { job_id := some "b", job_url := some "https://x.example/b", status := some "prepared" }

/-! ## Tracker CSV/JSON export (src/application-tracker.js `exportCsv`/`exportJson`)

A result row of `SELECT *` is a list of SQLite values aligned with the table's
column order; values are null, text, or integers (the autoincrement `id`). -/

inductive CellV where
  | vnull : CellV
  | vstr : String → CellV
  | vint : Nat → CellV
  deriving DecidableEq

/-- JS `String(value)` for the values a row can hold (not applied to null,
which the source maps to the empty field before stringification). -/
def cellToString : CellV → String
  | .vnull => ""
  | .vstr s => s
  | .vint n => toString n

/-- The column list of the `applications` table, in `CREATE TABLE` order —
what `Object.keys(rows[0])` yields for a `SELECT *` row. -/
def applicationColumns : List String :=
  ["id", "job_id", "job_url", "platform", "company", "title", "location", "status",
   "status_detail", "failure_category", "notes", "discovered_at", "enriched_at",
   "prepared_at", "applied_at", "updated_at", "resume_path", "cover_letter_path",
   "artifact_paths", "metadata"]

/-- JS `String(value).replace(/"/g, '""')`. -/
def csvEscapeList : List Char → List Char
  | [] => []
  | c :: cs => if c = '"' then '"' :: '"' :: csvEscapeList cs else c :: csvEscapeList cs

/-- One exported field: null/undefined becomes the empty (unquoted) string,
every other value is quoted with internal quotes doubled. -/
def renderCell : CellV → List Char
  | .vnull => []
  | .vstr s => '"' :: (csvEscapeList s.data ++ ['"'])
  | .vint n => '"' :: (csvEscapeList (toString n).data ++ ['"'])

/-- JS `parts.join(sep)` on character lists. -/
def joinChars (sep : List Char) : List (List Char) → List Char
  | [] => []
  | [x] => x
  | x :: xs => x ++ sep ++ joinChars sep xs

/-- Embeds `exportCsv`: empty string for no rows, else the header line
(`headers.join(',')`) followed by one quoted line per row, joined by
newlines. -/
def exportCsv (headers : List String) (rows : List (List CellV)) : String :=
  if rows = [] then ""
  else
    ⟨joinChars ['\n']
      (joinChars [','] (headers.map (fun h => h.data)) ::
        rows.map (fun r => joinChars [','] (r.map renderCell)))⟩

/-- Embeds `exportJson`: the same `SELECT *` rows, unchanged. -/
def exportJson (rows : List (List CellV)) : List (List CellV) :=
  rows

/-! ### A standard CSV parser (the spec side of the round-trip claim)

This parser follows RFC-4180 quoting: a field either is quoted — consuming up
to the closing quote, with `""` denoting a literal quote, commas and newlines
taken literally inside — or is unquoted text up to the next comma/newline. -/

def parseQuoted : List Char → List Char → List Char × List Char
  | acc, [] => (acc.reverse, [])
  | acc, c :: cs =>
    if c = '"' then
      match cs with
      | '"' :: cs2 => parseQuoted ('"' :: acc) cs2
      | _ => (acc.reverse, cs)
    else parseQuoted (c :: acc) cs

def parseUnquoted : List Char → List Char × List Char
  | [] => ([], [])
  | c :: cs =>
    if c = ',' ∨ c = '\n' then ([], c :: cs)
    else
      let r := parseUnquoted cs
      (c :: r.1, r.2)

def parseField : List Char → List Char × List Char
  | '"' :: cs => parseQuoted [] cs
  | cs => parseUnquoted cs

def parseRecord : Nat → List Char → List (List Char) × List Char
  | 0, cs => ([], cs)
  | fuel + 1, cs =>
    let f := parseField cs
    match f.2 with
    | ',' :: cs2 =>
      let r := parseRecord fuel cs2
      (f.1 :: r.1, r.2)
    | '\n' :: cs2 => ([f.1], cs2)
    | _ => ([f.1], [])

def parseCsvRecords : Nat → List Char → List (List (List Char))
  | 0, _ => []
  | _, [] => []
  | fuel + 1, cs =>
    let r := parseRecord (cs.length + 1) cs
    r.1 :: parseCsvRecords fuel r.2

def parseCsvStandard (s : String) : List (List String) :=
  if s.data = [] then []
  else (parseCsvRecords (s.data.length + 1) s.data).map
    (fun fields => fields.map (fun f => (⟨f⟩ : String)))

/-- The continuations a well-formed field may be followed by: end of input, a
comma, or a newline. -/
def sepHead (rest : List Char) : Prop :=
  rest = [] ∨ ∃ c cs, rest = c :: cs ∧ (c = ',' ∨ c = '\n')

/-- A field text that parses to a given value before any legal continuation. -/
def FieldEnc (text value : List Char) : Prop :=
  ∀ rest, sepHead rest → parseField (text ++ rest) = (value, rest)

/-- Header fields as (text, value) pairs: unquoted column names. -/
def headerPS : List (List Char × List Char) :=
  applicationColumns.map (fun h => (h.data, h.data))

/-- Row fields as (text, value) pairs: quoted renderings and their string values. -/
def rowPS (r : List CellV) : List (List Char × List Char) :=
  r.map (fun v => (renderCell v, (cellToString v).data))

/-- A freshly discovered job's `SELECT *` row: most columns NULL, `id` an
integer. -/
def c9Row : List CellV :=
  [CellV.vint 1, CellV.vstr "greenhouse-aHR0cHM6Ly9ib2F",
   CellV.vstr "https://boards.greenhouse.io/acme/jobs/1", CellV.vstr "greenhouse",
   CellV.vnull, CellV.vnull, CellV.vnull, CellV.vstr "discovered",
   CellV.vnull, CellV.vnull, CellV.vnull, CellV.vstr "2026-01-01 00:00:00",
   CellV.vnull, CellV.vnull, CellV.vnull, CellV.vstr "2026-01-01 00:00:00",
   CellV.vnull, CellV.vnull, CellV.vnull, CellV.vnull]

/-- The C9 claim read literally: every re-parsed CSV value IS the value the
JSON export holds for that record and field. -/
def csvJsonRoundTripsExactly (rows : List (List CellV)) : Prop :=
  ((parseCsvStandard (exportCsv applicationColumns rows)).drop 1).map
    (fun r => r.map CellV.vstr) = exportJson rows

/-! ### Helper lemmas for the generic adapter -/

theorem jsOrStr_eq_auto {m : Option String} (h : jsOrStr m "assisted" = "auto") :
    m = some "auto" := by
  cases m with
  | none => simp [jsOrStr] at h
  | some s =>
    simp only [jsOrStr] at h
    by_cases hs : s = "" <;> simp [hs] at h
    simp [h]

theorem getD_true_eq_false {d : Option Bool} (h : d.getD true = false) : d = some false := by
  cases d with
  | none => simp at h
  | some b => cases b <;> simp_all

theorem clickSubmit_true {buttons : List String} {mode : String} {dryRun : Bool}
    (h : clickSubmitIfAllowed buttons mode dryRun = true) :
    mode = "auto" ∧ dryRun = false := by
  by_cases hm : mode = "auto"
  · cases dryRun with
    | false => exact ⟨hm, rfl⟩
    | true => simp [clickSubmitIfAllowed] at h
  · simp [clickSubmitIfAllowed, hm] at h

theorem generic_submitClicked_requires {page : GPage} {options : ApplyOptions}
    (h : (GenericFormApplyAdapter.applyAssisted page options).submitClicked = true) :
    options.mode = some "auto" ∧ options.dryRun = some false := by
  unfold GenericFormApplyAdapter.applyAssisted at h
  cases hn : page.navError with
  | some msg => simp [hn] at h
  | none =>
    simp only [hn] at h
    cases hf : detectFriction page.content with
    | some f => simp [hf] at h
    | none =>
      simp only [hf] at h
      have := clickSubmit_true h
      exact ⟨jsOrStr_eq_auto this.1, getD_true_eq_false this.2⟩

theorem generic_status_submitted_iff (page : GPage) (options : ApplyOptions) :
    ((GenericFormApplyAdapter.applyAssisted page options).status = "submitted") ↔
    ((GenericFormApplyAdapter.applyAssisted page options).submitClicked = true) := by
  unfold GenericFormApplyAdapter.applyAssisted
  cases hn : page.navError with
  | some msg => simp
  | none =>
    cases hf : detectFriction page.content with
    | some f => simp
    | none =>
      by_cases hs : clickSubmitIfAllowed page.buttons
          (jsOrStr options.mode "assisted") (options.dryRun.getD true) = true
      · simp [hs]
      · simp [hs]

/-- CLAIM C10 (implicit): omitting the `dryRun` key makes `dryRun` default to
`true` inside `applyAssisted`, so even with `mode = auto` the submit button is
never clicked and the status is never `submitted`; automatic submission
additionally requires an explicit `dryRun: false`. -/
theorem c10_dry_run_defaults_true (page : GPage) (options : ApplyOptions)
    (h : options.dryRun = none) :
    (GenericFormApplyAdapter.applyAssisted page options).submitClicked = false ∧
    (GenericFormApplyAdapter.applyAssisted page options).status ≠ "submitted" := by
  have hclick : (GenericFormApplyAdapter.applyAssisted page options).submitClicked = false := by
    by_contra hc
    have hc' : (GenericFormApplyAdapter.applyAssisted page options).submitClicked = true := by
      revert hc
      cases (GenericFormApplyAdapter.applyAssisted page options).submitClicked <;> simp
    have := generic_submitClicked_requires hc'
    rw [h] at this
    exact Option.noConfusion this.2
  refine ⟨hclick, fun hs => ?_⟩
  have := (generic_status_submitted_iff page options).mp hs
  rw [hclick] at this
  exact Bool.noConfusion this

/-- Witness for C10: `mode = auto` with `dryRun` omitted does not submit. -/
theorem c10_witness :
    (GenericFormApplyAdapter.applyAssisted
      { content := "Apply now", buttons := ["Submit"] }
      { mode := some "auto" }).submitClicked = false :=
  (c10_dry_run_defaults_true
    { content := "Apply now", buttons := ["Submit"] }
    { mode := some "auto" } rfl).1

/-! ### Claim C2: one Job Record per unique URL -/

theorem addJob_idempotent (t : Tracker) (j : AddJobInput) :
    (ApplicationTracker.addJob (ApplicationTracker.addJob t j).1 j).2.inserted = false ∧
    (ApplicationTracker.addJob (ApplicationTracker.addJob t j).1 j).1 =
      (ApplicationTracker.addJob t j).1 := by
  unfold ApplicationTracker.addJob
  by_cases h : t.any (fun row => row.job_id = some (jobIdFor j)) = true
  · simp [h]
  · have h' : t.any (fun row => row.job_id = some (jobIdFor j)) = false := by
      revert h
      cases t.any (fun row => row.job_id = some (jobIdFor j)) <;> simp
    have hmem : (t ++ [insertedRow j]).any
        (fun row => row.job_id = some (jobIdFor j)) = true := by
      simp [List.any_append, insertedRow]
    simp [h', hmem]

/-- CLAIM C2 could not be confirmed as stated: the derived `job_id` truncates
the base64 of the URL to 16 characters (its first 12 UTF-8 bytes), so two
DISTINCT URLs sharing a platform and their first 12 bytes collide to a single
row.  Concretely `https://example.com/a` and `https://example.com/b` under
platform `generic` derive the same `job_id`, the second `addJob` is ignored,
and only one Job Record exists for two distinct `job_url`s. -/
theorem c2_counterexample :
    cexJobA.job_url ≠ cexJobB.job_url ∧
    jobIdFor cexJobA = jobIdFor cexJobB ∧
    (ApplicationTracker.addJob (ApplicationTracker.addJob ([] : Tracker) cexJobA).1
      cexJobB).2.inserted = false ∧
    (ApplicationTracker.addJob (ApplicationTracker.addJob ([] : Tracker) cexJobA).1
      cexJobB).1.length = 1 :=
  ⟨by decide, by decide, by decide, by decide⟩

/-- CLAIM C2 (amended): re-adding the same job input is a no-op (`inserted:
false`, tracker unchanged), and two adds whose DERIVED job ids differ produce
two distinct rows; uniqueness is per derived `job_id` — platform plus the first
16 base64 characters (12 UTF-8 bytes) of the URL — not per full `job_url`. -/
theorem c2_unique_by_derived_id (t : Tracker) (j j2 : AddJobInput)
    (hid : jobIdFor j ≠ jobIdFor j2) :
    ((ApplicationTracker.addJob (ApplicationTracker.addJob t j).1 j).2.inserted = false ∧
      (ApplicationTracker.addJob (ApplicationTracker.addJob t j).1 j).1 =
        (ApplicationTracker.addJob t j).1) ∧
    (ApplicationTracker.addJob (ApplicationTracker.addJob ([] : Tracker) j).1 j2).1.length = 2 := by
  refine ⟨addJob_idempotent t j, ?_⟩
  have h1 : (ApplicationTracker.addJob ([] : Tracker) j).1 = [insertedRow j] := by
    simp [ApplicationTracker.addJob]
  rw [h1]
  have hany : ([insertedRow j] : List JobRow).any
      (fun row => row.job_id = some (jobIdFor j2)) = false := by
    simp [insertedRow, hid]
  simp [ApplicationTracker.addJob, hany]

/-- Witness for C2 (amended) at two jobs with distinct derived ids. -/
theorem c2_witness :
    (ApplicationTracker.addJob
      (ApplicationTracker.addJob ([] : Tracker)
        { job_url := some "https://boards.greenhouse.io/acme/jobs/1",
          platform := some "greenhouse" }).1
      { job_url := some "https://jobs.lever.co/acme/2", platform := some "lever" }).1.length = 2 :=
  (c2_unique_by_derived_id ([] : Tracker)
    { job_url := some "https://boards.greenhouse.io/acme/jobs/1", platform := some "greenhouse" }
    { job_url := some "https://jobs.lever.co/acme/2", platform := some "lever" }
    (by decide)).2

theorem discoverLoop_urls (registry : AdapterRegistry) (urls : List String) (t : Tracker) :
    (discoverLoop registry urls t).1.map (fun r => r.url) = urls := by
  induction urls generalizing t with
  | nil => rfl
  | cons u rest ih => simp [discoverLoop, ih]

/-- CLAIM C8: `discoverFromFile` keeps one trimmed URL per non-blank,
non-comment line and emits one (url, jobId, inserted) outcome per kept URL;
the stored platform label comes from the first registered job-source adapter
whose `canHandleUrl` matches, falling back to `generic`; on the default
registry a Greenhouse, a Lever and an unknown-domain URL yield three records
labelled greenhouse / lever / generic. -/
theorem c8_discover_from_file_routing (content : String) (registry : AdapterRegistry)
    (t : Tracker) (url : String)
    (hgh : containsSub url "boards.greenhouse.io" = true) :
    ((discoverFromFile content registry t).1.map (fun r => r.url) = discoverUrls content) ∧
    (platformForUrl (createDefaultRegistry) url = "greenhouse") ∧
    (∀ u, containsSub u "boards.greenhouse.io" = false → containsSub u "jobs.lever.co" = true →
      platformForUrl (createDefaultRegistry) u = "lever") ∧
    (∀ u, containsSub u "boards.greenhouse.io" = false → containsSub u "jobs.lever.co" = false →
      containsSub u "myworkdayjobs.com" = false →
      platformForUrl (createDefaultRegistry) u = "generic") ∧
    ((discoverFromFile c8File (createDefaultRegistry) ([] : Tracker)).1.map
        (fun r => r.inserted) = [true, true, true]) ∧
    ((discoverFromFile c8File (createDefaultRegistry) ([] : Tracker)).2.map
        (fun row => row.platform) = [some "greenhouse", some "lever", some "generic"]) := by
  refine ⟨discoverLoop_urls registry (discoverUrls content) t, ?_, ?_, ?_, by decide, by decide⟩
  · simp [platformForUrl, AdapterRegistry.getJobSourceForUrl, createDefaultRegistry,
      greenhouseSource, hgh]
    decide
  · intro u h1 h2
    simp [platformForUrl, AdapterRegistry.getJobSourceForUrl, createDefaultRegistry,
      greenhouseSource, leverSource, h1, h2]
    decide
  · intro u h1 h2 h3
    simp [platformForUrl, AdapterRegistry.getJobSourceForUrl, createDefaultRegistry,
      greenhouseSource, leverSource, workdaySource, h1, h2, h3]

/-- Witness for C8 at a Greenhouse board URL. -/
theorem c8_witness :
    platformForUrl (createDefaultRegistry) "https://boards.greenhouse.io/acme/jobs/123"
      = "greenhouse" :=
  (c8_discover_from_file_routing "" (createDefaultRegistry) ([] : Tracker)
    "https://boards.greenhouse.io/acme/jobs/123" (by decide)).2.1

theorem lookupMeta_removeKey (m : List (String × String)) (k k2 : String) (hne : k2 ≠ k) :
    lookupMeta k2 (removeKey k m) = lookupMeta k2 m := by
  induction m with
  | nil => rfl
  | cons p rest ih =>
    have hk2 : ¬(k = k2) := fun h => hne h.symm
    by_cases hp : p.1 = k
    · have hp2 : ¬(p.1 = k2) := by rw [hp]; exact hk2
      simp [removeKey, hp, lookupMeta, hp2, hk2, ih]
    · by_cases hp2 : p.1 = k2
      · simp [removeKey, hp, lookupMeta, hp2, hne, ih]
      · simp [removeKey, hp, lookupMeta, hp2, ih]

theorem lookupMeta_replaceKey (m : List (String × String)) (k k2 v : String) (hne : k2 ≠ k) :
    lookupMeta k2 (replaceKey k v m) = lookupMeta k2 m := by
  induction m with
  | nil => rfl
  | cons p rest ih =>
    have hk2 : ¬(k = k2) := fun h => hne h.symm
    by_cases hp : p.1 = k
    · have hp2 : ¬(p.1 = k2) := by rw [hp]; exact hk2
      simp [replaceKey, hp, lookupMeta, hp2, hk2, ih]
    · by_cases hp2 : p.1 = k2
      · simp [replaceKey, hp, lookupMeta, hp2, hne, ih]
      · simp [replaceKey, hp, lookupMeta, hp2, ih]

theorem lookupMeta_appendOne (m : List (String × String)) (k k2 v : String) (hne : k2 ≠ k) :
    lookupMeta k2 (m ++ [(k, v)]) = lookupMeta k2 m := by
  induction m with
  | nil =>
    have hk2 : ¬(k = k2) := fun h => hne h.symm
    simp [lookupMeta, hk2]
  | cons p rest ih =>
    by_cases hp : p.1 = k2
    · simp [lookupMeta, hp]
    · simp [lookupMeta, hp, ih]

theorem lookupMeta_spreadSetKey_ne (m : List (String × String)) (k k2 : String)
    (v : Option String) (hne : k2 ≠ k) :
    lookupMeta k2 (spreadSetKey m k v) = lookupMeta k2 m := by
  cases v with
  | none => exact lookupMeta_removeKey m k k2 hne
  | some v =>
    unfold spreadSetKey
    by_cases hk : hasKey k m = true
    · simp only [hk, if_pos]
      exact lookupMeta_replaceKey m k k2 v hne
    · simp only [hk, if_neg, Bool.false_eq_true, not_false_eq_true]
      exact lookupMeta_appendOne m k k2 v hne

theorem lookupMeta_spreadSetKey_self (m : List (String × String)) (k : String)
    (v : Option String) :
    lookupMeta k (spreadSetKey m k v) = v := by
  cases v with
  | none =>
    show lookupMeta k (removeKey k m) = none
    induction m with
    | nil => rfl
    | cons p rest ih =>
      by_cases hp : p.1 = k
      · simp [removeKey, hp, ih]
      · simp [removeKey, hp, lookupMeta, ih]
  | some v =>
    unfold spreadSetKey
    by_cases hk : hasKey k m = true
    · simp only [hk, if_pos]
      induction m with
      | nil => simp [hasKey] at hk
      | cons p rest ih =>
        by_cases hp : p.1 = k
        · simp [replaceKey, hp, lookupMeta]
        · have htl : hasKey k rest = true := by
            simp only [hasKey, hp, Bool.false_or, decide_eq_true_eq] at hk
            simpa using hk
          simp [replaceKey, hp, lookupMeta, ih htl]
    · simp only [hk, if_neg, Bool.false_eq_true, not_false_eq_true]
      induction m with
      | nil => simp [lookupMeta]
      | cons p rest ih =>
        have hp : ¬(p.1 = k) := by
          intro h
          exact hk (by simp [hasKey, h])
        have htl : ¬(hasKey k rest = true) := by
          intro h
          exact hk (by simp [hasKey, h])
        simp [lookupMeta, hp, ih htl]

/-- CLAIM C7 could not be confirmed as stated: the metadata merge
`x7b...old, description: enriched.descriptionx7d` overwrites the `description`
key unconditionally, so a previously stored description does NOT survive a
re-enrichment whose description came back empty — here the stored
`Great role` is replaced by the empty string. -/
theorem c7_counterexample :
    lookupMeta "description" (c7Job.metadata.getD []) = some "Great role" ∧
    ((enrichJob "job-1" { jobSources := [oracleSource (Except.ok c7Enr)] } [c7Job]
        "2026-01-01").toOption.map
      (fun r => lookupMeta "description" (r.2.metadata.getD []))) = some (some "") ∧
    (some "" : Option String) ≠ some "Great role" :=
  ⟨by decide, by decide, by decide⟩

/-- CLAIM C7 (amended): re-enriching preserves the stored non-empty
title/company/location whenever the new enrichment's value for that field is
empty or absent, and every previously captured metadata key OTHER than
`description` survives; the `description` key itself is unconditionally
replaced by the new enrichment's description (dropped when absent). -/
theorem c7_enrich_merge_semantics (job : JobRow) (enr : EnrichResult) (now id : String)
    (hid : job.job_id = some id) (hhttp : containsSub id "http" = false) :
    (enrichJob id { jobSources := [oracleSource (Except.ok enr)] } [job] now =
      Except.ok ([ApplicationTracker.patchRow job (enrichUpdates job enr now) now],
        ApplicationTracker.patchRow job (enrichUpdates job enr now) now)) ∧
    (truthyS enr.title = false →
      (ApplicationTracker.patchRow job (enrichUpdates job enr now) now).title = job.title) ∧
    (truthyS enr.company = false →
      (ApplicationTracker.patchRow job (enrichUpdates job enr now) now).company = job.company) ∧
    (truthyS enr.location = false →
      (ApplicationTracker.patchRow job (enrichUpdates job enr now) now).location = job.location) ∧
    (∀ k2, k2 ≠ "description" →
      lookupMeta k2 (((ApplicationTracker.patchRow job (enrichUpdates job enr now) now).metadata).getD [])
        = lookupMeta k2 (job.metadata.getD [])) ∧
    (lookupMeta "description"
        (((ApplicationTracker.patchRow job (enrichUpdates job enr now) now).metadata).getD [])
      = enr.description) := by
  refine ⟨?_, ?_, ?_, ?_, ?_, ?_⟩
  · simp [enrichJob, resolveJob, hhttp, ApplicationTracker.getJob, List.find?, hid,
      AdapterRegistry.getJobSourceForUrl, oracleSource, ApplicationTracker.updateJob,
      bind, Except.bind]
  · intro h
    simp [ApplicationTracker.patchRow, enrichUpdates, jsOrS, h]
  · intro h
    simp [ApplicationTracker.patchRow, enrichUpdates, jsOrS, h]
  · intro h
    simp [ApplicationTracker.patchRow, enrichUpdates, jsOrS, h]
  · intro k2 hk2
    have : (ApplicationTracker.patchRow job (enrichUpdates job enr now) now).metadata =
        some (spreadSetKey (job.metadata.getD []) "description" enr.description) := by
      simp [ApplicationTracker.patchRow, enrichUpdates]
    rw [this]
    exact lookupMeta_spreadSetKey_ne _ _ _ _ hk2
  · have : (ApplicationTracker.patchRow job (enrichUpdates job enr now) now).metadata =
        some (spreadSetKey (job.metadata.getD []) "description" enr.description) := by
      simp [ApplicationTracker.patchRow, enrichUpdates]
    rw [this]
    exact lookupMeta_spreadSetKey_self _ _ _

/-- Witness for C7 (amended): a second enrichment with empty location keeps the
stored location. -/
theorem c7_witness :
    (ApplicationTracker.patchRow c7Job (enrichUpdates c7Job c7Enr "2026-01-01")
      "2026-01-01").location = c7Job.location :=
  (c7_enrich_merge_semantics c7Job c7Enr "2026-01-01" "job-1" rfl (by decide)).2.2.2.1 rfl

/-! ### Claim C6: bounded multi-step form loop with stuck detection -/

theorem easyApplyLoop_iterations_le (a d : Bool) (pages : Nat → List String) (s : Bool)
    (fuel idx : Nat) (lastBtn : String) (count : Nat) :
    (easyApplyLoop a d pages s fuel idx lastBtn count).2 ≤ fuel := by
  induction fuel generalizing idx lastBtn count with
  | zero => simp [easyApplyLoop]
  | succ n ih =>
    simp only [easyApplyLoop]
    repeat' split
    all_goals first
      | exact Nat.succ_le_succ (Nat.zero_le n)
      | exact Nat.succ_le_succ (ih _ _ _)

/-- CLAIM C6: the next/continue loop of `fillEasyApplyForm` always returns
within its hard ceiling of `maxAttempts = 10` iterations, and on a form whose
Next button never changes state it returns an unsuccessful result with the
stuck-form diagnostic after the repeated-button threshold — at iteration 4,
within the ceiling — never looping forever. -/
theorem c6_stuck_form_bound :
    (∀ (a d : Bool) (pages : Nat → List String) (s : Bool) (idx count : Nat)
        (lastBtn : String),
      (easyApplyLoop a d pages s maxAttempts idx lastBtn count).2 ≤ maxAttempts) ∧
    (∀ (opts : LIOptions) (flow : LIFlow),
      (fillEasyApplyFormRun opts flow).2 ≤ maxAttempts) ∧
    (∀ (a d s : Bool),
      (easyApplyLoop a d (fun _ => ["Next"]) s maxAttempts 0 "" 0).1.success = false ∧
      (easyApplyLoop a d (fun _ => ["Next"]) s maxAttempts 0 "" 0).1.error =
        some "Form stuck - likely missing required fields" ∧
      (easyApplyLoop a d (fun _ => ["Next"]) s maxAttempts 0 "" 0).2 = 4 ∧
      4 ≤ maxAttempts) := by
  refine ⟨fun a d pages s idx count lastBtn =>
      easyApplyLoop_iterations_le a d pages s maxAttempts idx lastBtn count,
    fun opts flow => ?_, fun a d s => ?_⟩
  · unfold fillEasyApplyFormRun
    split
    · simp [maxAttempts]
    · split
      · simp [maxAttempts]
      · exact easyApplyLoop_iterations_le _ _ _ _ _ _ _ _
  · exact ⟨rfl, rfl, rfl, by decide⟩

/-! ### Claim C3: friction short-circuit -/

theorem jsOrStr_some_empty (s : String) : jsOrStr (some s) "" = s := by
  unfold jsOrStr
  by_cases h : s = ""
  · simp [h]
  · simp [h]

theorem generic_friction_blocked (page : GPage) (options : ApplyOptions) (f : String)
    (hnav : page.navError = none) (hfr : detectFriction page.content = some f) :
    (GenericFormApplyAdapter.applyAssisted page options).status = "blocked" ∧
    (GenericFormApplyAdapter.applyAssisted page options).reason = some f ∧
    (GenericFormApplyAdapter.applyAssisted page options).filled = [] ∧
    (GenericFormApplyAdapter.applyAssisted page options).submitClicked = false := by
  unfold GenericFormApplyAdapter.applyAssisted
  simp [hnav, hfr]

/-- CLAIM C3 could not be confirmed as stated: for the LinkedIn apply adapter a
friction signal detected on the job page (here a two-factor prompt) does NOT
produce status `blocked` — `applyToCurrentJob` returns `x7bsuccess: false,
error: 'Blocked by two-factor', blocked: truex7d` but the adapter's result
mapping never reads the `blocked` flag, so the recorded status is `failed` and
the recorded failure category is `Blocked by two-factor`, not `two-factor`. -/
theorem c3_counterexample :
    detectFriction c3Flow.pageContent = some "two-factor" ∧
    (LinkedInApplyAdapter.applyAssisted {} { flow := c3Flow }).status = "failed" ∧
    (LinkedInApplyAdapter.applyAssisted {} { flow := c3Flow }).status ≠ "blocked" ∧
    (LinkedInApplyAdapter.applyAssisted {} { flow := c3Flow }).reason =
      some "Blocked by two-factor" ∧
    jsOrStr (LinkedInApplyAdapter.applyAssisted {} { flow := c3Flow }).reason "" ≠
      "two-factor" :=
  ⟨by decide, by decide, by decide, by decide, by decide⟩

/-- CLAIM C3 (amended): for the generic form adapter (and the platform adapters
delegating to it), a friction signal detected after navigation yields status
`blocked` with the signal as reason, no field filled and no submit clicked, and
`applyJob` records `failure_category` equal to the signal.  The LinkedIn
adapter also stops before filling or submitting on a friction signal, but
reports status `failed` with reason `Blocked by <signal>` rather than
`blocked`/`<signal>`, and it checks friction only before opening the form. -/
theorem c3_friction_short_circuit (page : GPage) (options : ApplyOptions)
    (job : JobRow) (docs : Docs) (profile : Profile)
    (mode : String) (dryRun : Bool) (now id f : String)
    (hnav : page.navError = none) (hfr : detectFriction page.content = some f)
    (hid : job.job_id = some id) (hhttp : containsSub id "http" = false) :
    ((GenericFormApplyAdapter.applyAssisted page options).status = "blocked" ∧
      (GenericFormApplyAdapter.applyAssisted page options).reason = some f ∧
      (GenericFormApplyAdapter.applyAssisted page options).filled = [] ∧
      (GenericFormApplyAdapter.applyAssisted page options).submitClicked = false) ∧
    ((applyJob id { applyAdapters := [genericFormApply] } [job] (Except.ok docs)
        (genericRunAdapter page) profile mode dryRun now).toOption.map
      (fun r => r.1.map (fun row => (row.status, row.failure_category)))
      = some [(some "blocked", some f)]) ∧
    (∀ (opts2 : ApplyOptions) (run : LinkedInRun),
      run.loginOk = true → run.flow.navError = none →
      detectFriction run.flow.pageContent = some f →
      (LinkedInApplyAdapter.applyAssisted opts2 run).status = "failed" ∧
      (LinkedInApplyAdapter.applyAssisted opts2 run).reason = some ("Blocked by " ++ f) ∧
      (LinkedInApplyAdapter.applyAssisted opts2 run).status ≠ "submitted") := by
  refine ⟨generic_friction_blocked page options f hnav hfr, ?_, ?_⟩
  · have hout := generic_friction_blocked page
      (pipelineApplyOptions profile docs mode dryRun) f hnav hfr
    simp only [applyJob, resolveJob, hhttp, ApplicationTracker.getJob, List.find?, hid,
      AdapterRegistry.getApplyAdapterForUrl, genericFormApply, ApplicationTracker.updateJob,
      bind, Except.bind, genericRunAdapter]
    simp [hid, ApplicationTracker.patchRow, applyUpdates, GenericOutcome.toAdapterOutcome,
      hout.1, hout.2.1, jsOrStr_some_empty, Except.toOption, jsOrStr]
    exact fun h => h.symm
  · intro opts2 run hlogin hnavli hfr2
    have hmax : ¬((match opts2.maxApps with
        | some n => if n = 0 then 1 else n
        | none => 1) ≤ 0) := by
      cases opts2.maxApps with
      | none => simp
      | some n => cases n <;> simp
    unfold LinkedInApplyAdapter.applyAssisted applyToJob applyToCurrentJob
    simp [hlogin, hnavli, hfr2, hmax]

/-- Witness for C3 (amended) at a reCAPTCHA-bearing page. -/
theorem c3_witness :
    (GenericFormApplyAdapter.applyAssisted { content := "Protected by reCAPTCHA" }
      {}).status = "blocked" :=
  (c3_friction_short_circuit { content := "Protected by reCAPTCHA" } {}
    { job_id := some "jw3" } {} {} "assisted" true "2026-01-01" "jw3" "captcha"
    rfl (by decide) rfl (by decide)).1.1

/-! ### Claim C5: artifacts on every non-submitted outcome -/

theorem generic_artifacts_two (page : GPage) (options : ApplyOptions) :
    (GenericFormApplyAdapter.applyAssisted page options).artifacts.length = 2 := by
  unfold GenericFormApplyAdapter.applyAssisted
  cases hn : page.navError with
  | some msg => simp
  | none =>
    cases hf : detectFriction page.content with
    | some f => simp
    | none => simp

/-- CLAIM C5 could not be confirmed as stated: the LinkedIn apply adapter
attaches no artifacts to any outcome, so an assisted-mode apply that reaches
the submit button ends `needs_review` with an EMPTY `artifact_paths` list on
the Job Record — no diagnostic artifact exists for a human to inspect. -/
theorem c5_counterexample :
    (LinkedInApplyAdapter.applyAssisted { mode := some "assisted" }
      { flow := c5Flow }).status = "needs_review" ∧
    (LinkedInApplyAdapter.applyAssisted { mode := some "assisted" }
      { flow := c5Flow }).artifacts = [] ∧
    ((applyJob "job-c5" { applyAdapters := [linkedInApply] } [c5Job] (Except.ok {})
        (fun _ o => LinkedInApplyAdapter.applyAssisted o { flow := c5Flow })
        {} "assisted" true "2026-01-01").toOption.map
      (fun r => r.1.map (fun row => (row.status, row.artifact_paths)))
      = some [(some "needs_review", some [])]) :=
  ⟨by decide, by decide, by decide⟩

/-- CLAIM C5 (amended): the GENERIC form adapter produces a two-path page
capture on every outcome, so each non-`submitted` outcome carries artifacts,
and `applyJob` writes the outcome's status/status_detail/failure_category and
the non-empty artifact list onto the Job Record; an assisted-mode generic
apply that reaches the submit button ends `needs_review` with artifacts.  The
LinkedIn adapter, however, returns no artifacts, so its non-`submitted`
outcomes leave `artifact_paths` empty. -/
theorem c5_artifacts_on_non_success (page : GPage) (options : ApplyOptions)
    (job : JobRow) (docs : Docs) (profile : Profile)
    (mode : String) (dryRun : Bool) (now id : String)
    (hid : job.job_id = some id) (hhttp : containsSub id "http" = false)
    (hnav : page.navError = none) (hfr : detectFriction page.content = none) :
    ((GenericFormApplyAdapter.applyAssisted page options).artifacts.length = 2) ∧
    ((applyJob id { applyAdapters := [genericFormApply] } [job] (Except.ok docs)
        (genericRunAdapter page) profile mode dryRun now).toOption.map
      (fun r => r.1.map (fun row =>
        (row.status, row.status_detail, row.failure_category,
          (row.artifact_paths.getD []).length)))
      = some [(some (GenericFormApplyAdapter.applyAssisted page
            (pipelineApplyOptions profile docs mode dryRun)).status,
          some (jsOrStr (GenericFormApplyAdapter.applyAssisted page
            (pipelineApplyOptions profile docs mode dryRun)).notes ""),
          some (jsOrStr (GenericFormApplyAdapter.applyAssisted page
            (pipelineApplyOptions profile docs mode dryRun)).reason ""),
          2)]) ∧
    (mode = "assisted" →
      (GenericFormApplyAdapter.applyAssisted page
        (pipelineApplyOptions profile docs mode dryRun)).status = "needs_review") := by
  refine ⟨generic_artifacts_two page options, ?_, ?_⟩
  · have hstatus : (GenericFormApplyAdapter.applyAssisted page
        (pipelineApplyOptions profile docs mode dryRun)).status ≠ "" := by
      unfold GenericFormApplyAdapter.applyAssisted
      simp only [hnav, hfr]
      split <;> simp
    have hlen := generic_artifacts_two page (pipelineApplyOptions profile docs mode dryRun)
    simp only [applyJob, resolveJob, hhttp, ApplicationTracker.getJob, List.find?, hid,
      AdapterRegistry.getApplyAdapterForUrl, genericFormApply, ApplicationTracker.updateJob,
      bind, Except.bind, genericRunAdapter]
    simp [hid, ApplicationTracker.patchRow, applyUpdates, GenericOutcome.toAdapterOutcome,
      Except.toOption, jsOrStr, hstatus, hlen]
  · intro hm
    unfold GenericFormApplyAdapter.applyAssisted
    simp only [hnav, hfr]
    have : clickSubmitIfAllowed page.buttons
        (jsOrStr (pipelineApplyOptions profile docs mode dryRun).mode "assisted")
        ((pipelineApplyOptions profile docs mode dryRun).dryRun.getD true) = false := by
      simp [pipelineApplyOptions, hm, jsOrStr, clickSubmitIfAllowed]
    simp [this]

/-- Witness for C5 (amended): a generic assisted run on a plain form page. -/
theorem c5_witness :
    (GenericFormApplyAdapter.applyAssisted
      { content := "Join our team", buttons := ["Submit application"] }
      (pipelineApplyOptions {} {} "assisted" true)).status = "needs_review" :=
  (c5_artifacts_on_non_success
    { content := "Join our team", buttons := ["Submit application"] } {}
    { job_id := some "jw5" } {} {} "assisted" true "2026-01-01" "jw5"
    rfl (by decide) rfl (by decide)).2.2 rfl

/-- CLAIM C4 could not be confirmed as stated: the stage functions contain no
try/catch, so a network error thrown by the adapter's `enrich` escapes
`enrichJob` (no status update is written), and the batch loop of `cmdApply`
aborts at the first thrown error — here a document-build failure on the first
job stops the batch before the second job is applied. -/
theorem c4_counterexample :
    (enrichJob "job-c4" { jobSources := [oracleSource (Except.error "ETIMEDOUT")] }
      [c4Job] "2026-01-01" = Except.error "ETIMEDOUT") ∧
    (cmdApplyBatch 10 { applyAdapters := [genericFormApply] }
      (fun id => if id = "a" then Except.error "LaTeX compile failed" else Except.ok {})
      (fun _ _ => { status := "needs_review" }) {} "assisted" true "2026-01-01"
      [c4JobA, c4JobB] = Except.error "LaTeX compile failed") :=
  ⟨by decide, by decide⟩

/-- CLAIM C4 (amended): only the caller-supplied-bad-id error `Job not found`
is a guaranteed hard error of `enrichJob`/`applyJob`; adapter-level failures
are converted into Job Record status updates only when the adapter itself
returns a failure result (as the bundled apply adapters do by catching their
own errors) — in that case a batch applies every selected job, continuing past
individual `failed` outcomes; but an exception thrown inside a stage function
(adapter `enrich`, document build) escapes uncaught and aborts the batch. -/
theorem c4_error_propagation (idOrUrl : String) (registry : AdapterRegistry) (t : Tracker)
    (bd : Except String Docs) (ra : ApplyAdapterDesc → ApplyOptions → AdapterOutcome)
    (p : Profile) (m : String) (d : Bool) (now : String)
    (hmiss : resolveJob t idOrUrl = none) :
    (enrichJob idOrUrl registry t now = Except.error "Job not found") ∧
    (applyJob idOrUrl registry t bd ra p m d now = Except.error "Job not found") ∧
    ((cmdApplyBatch 10 { applyAdapters := [genericFormApply] } (fun _ => Except.ok {})
        (fun _ _ => { status := "failed", reason := some "boom" }) {} "assisted" true
        "2026-01-01" [c4JobA, c4JobB]).toOption.map
      (fun t2 => t2.map (fun row => (row.status, row.failure_category, row.applied_at)))
      = some [(some "failed", some "boom", some "2026-01-01"),
          (some "failed", some "boom", some "2026-01-01")]) := by
  refine ⟨?_, ?_, by decide⟩
  · simp [enrichJob, hmiss, bind, Except.bind]
  · simp [applyJob, hmiss, bind, Except.bind]

/-- Witness for C4 (amended) at an id absent from an empty tracker. -/
theorem c4_witness :
    enrichJob "missing-id" (createDefaultRegistry) ([] : Tracker) "2026-01-01"
      = Except.error "Job not found" :=
  (c4_error_propagation "missing-id" (createDefaultRegistry) ([] : Tracker)
    (Except.ok {}) (fun _ _ => { status := "failed" }) {} "assisted" true "2026-01-01"
    (by decide)).1

/-! ### LinkedIn submit-safety helpers (for the shared assisted-mode contract) -/

theorem easyApplyLoop_no_submit (a d : Bool) (had : (!a || d) = true)
    (pages : Nat → List String) (s : Bool) (fuel idx : Nat) (lastBtn : String) (count : Nat) :
    (easyApplyLoop a d pages s fuel idx lastBtn count).1.success = false := by
  induction fuel generalizing idx lastBtn count with
  | zero => simp [easyApplyLoop]
  | succ n ih =>
    simp only [easyApplyLoop]
    repeat' split
    all_goals first
      | rfl
      | exact ih _ _ _

theorem applyToJob_no_submit (opts : LIOptions) (flow : LIFlow)
    (had : (!opts.autoSubmit || opts.dryRun) = true) :
    (applyToJob opts flow).success = false := by
  unfold applyToJob applyToCurrentJob fillEasyApplyFormRun
  repeat' split
  all_goals first
    | rfl
    | exact easyApplyLoop_no_submit opts.autoSubmit opts.dryRun had flow.formPages
        flow.submitSucceeds maxAttempts 0 "" 0

theorem linkedin_no_submit (options : ApplyOptions) (run : LinkedInRun)
    (hbad : options.mode ≠ some "auto" ∨ options.dryRun = some true) :
    (LinkedInApplyAdapter.applyAssisted options run).status ≠ "submitted" := by
  have had : (!(decide (options.mode = some "auto")) || options.dryRun.getD false) = true := by
    rcases hbad with hm | hd
    · simp [hm]
    · simp [hd]
  unfold LinkedInApplyAdapter.applyAssisted
  generalize (match options.maxApps with
    | some n => if n = 0 then 1 else n
    | none => 1 : Nat) = M
  split
  · simp
  · dsimp only
    split
    · simp
    · have hs := applyToJob_no_submit
        { autoSubmit := options.mode = some "auto",
          dryRun := options.dryRun.getD false,
          maxApps := M } run.flow had
      simp [hs]

theorem linkedin_submitted_requires (options : ApplyOptions) (run : LinkedInRun)
    (h : (LinkedInApplyAdapter.applyAssisted options run).status = "submitted") :
    options.mode = some "auto" ∧ options.dryRun ≠ some true := by
  constructor
  · by_contra hm
    exact linkedin_no_submit options run (Or.inl hm) h
  · intro hd
    exact linkedin_no_submit options run (Or.inr hd) h

/-! ### Claim C1: assisted by default, dry-run overrides mode -/

/-- CLAIM C1: for every `applyAssisted` call that reaches the final submit step
(for the generic form adapter: navigation succeeded and no friction detected),
the submit button is clicked only when `mode` is exactly `auto` and `dryRun` is
false; a call with no `mode` returns `needs_review` (never `submitted`), and a
call with `mode = auto` together with `dryRun = true` also returns
`needs_review` — and the LinkedIn adapter obeys the same contract: a
`submitted` status requires `mode = auto` and `dryRun` not true. -/
theorem c1_assisted_default_and_dry_run_override (page : GPage) (options : ApplyOptions)
    (hnav : page.navError = none) (hfr : detectFriction page.content = none) :
    ((GenericFormApplyAdapter.applyAssisted page options).submitClicked = true →
      options.mode = some "auto" ∧ options.dryRun = some false) ∧
    (options.mode = none →
      (GenericFormApplyAdapter.applyAssisted page options).status = "needs_review") ∧
    (options.mode = some "auto" → options.dryRun = some true →
      (GenericFormApplyAdapter.applyAssisted page options).status = "needs_review") ∧
    (∀ (options2 : ApplyOptions) (run : LinkedInRun),
      (LinkedInApplyAdapter.applyAssisted options2 run).status = "submitted" →
      options2.mode = some "auto" ∧ options2.dryRun ≠ some true) := by
  refine ⟨fun h => generic_submitClicked_requires h, fun hm => ?_, fun hm hd => ?_,
    fun options2 run h => linkedin_submitted_requires options2 run h⟩
  · unfold GenericFormApplyAdapter.applyAssisted
    simp only [hnav, hfr]
    have : clickSubmitIfAllowed page.buttons (jsOrStr options.mode "assisted")
        (options.dryRun.getD true) = false := by
      simp [hm, jsOrStr, clickSubmitIfAllowed]
    simp [this]
  · unfold GenericFormApplyAdapter.applyAssisted
    simp only [hnav, hfr]
    have : clickSubmitIfAllowed page.buttons (jsOrStr options.mode "assisted")
        (options.dryRun.getD true) = false := by
      simp [hd, clickSubmitIfAllowed]
    simp [this]

/-- Witness for C1 at a concrete page with a submit button and no mode given. -/
theorem c1_witness :
    (GenericFormApplyAdapter.applyAssisted
      { content := "Apply for this role", buttons := ["Submit application"] }
      { mode := none }).status = "needs_review" :=
  (c1_assisted_default_and_dry_run_override
    { content := "Apply for this role", buttons := ["Submit application"] }
    { mode := none } rfl (by decide)).2.1 rfl

theorem parseQuoted_escape (s : List Char) (acc rest : List Char) (hrest : sepHead rest) :
    parseQuoted acc (csvEscapeList s ++ '"' :: rest) = (acc.reverse ++ s, rest) := by
  induction s generalizing acc with
  | nil =>
    rcases hrest with h0 | ⟨c, cs, rfl, hc⟩
    · subst h0
      simp [csvEscapeList, parseQuoted]
    · have hcq : c ≠ '"' := by rcases hc with rfl | rfl <;> decide
      show parseQuoted acc ('"' :: c :: cs) = (acc.reverse ++ [], c :: cs)
      rw [parseQuoted.eq_def]
      simp only [if_pos]
      split
      · rename_i cs2 heq
        injection heq with h1 h2
        exact absurd h1 hcq
      · simp
  | cons x s2 ih =>
    by_cases hx : x = '"'
    · subst hx
      have hesc : csvEscapeList ('"' :: s2) = '"' :: '"' :: csvEscapeList s2 := by
        simp [csvEscapeList]
      rw [hesc, List.cons_append, List.cons_append]
      have step : parseQuoted acc ('"' :: '"' :: (csvEscapeList s2 ++ '"' :: rest)) =
          parseQuoted ('"' :: acc) (csvEscapeList s2 ++ '"' :: rest) := rfl
      rw [step, ih]
      simp
    · have hesc : csvEscapeList (x :: s2) = x :: csvEscapeList s2 := by
        simp [csvEscapeList, hx]
      rw [hesc, List.cons_append]
      have step : parseQuoted acc (x :: (csvEscapeList s2 ++ '"' :: rest)) =
          parseQuoted (x :: acc) (csvEscapeList s2 ++ '"' :: rest) := by
        rw [parseQuoted.eq_def]
        simp [hx]
      rw [step, ih]
      simp

theorem parseUnquoted_simple (w rest : List Char)
    (hw : ∀ c ∈ w, ¬(c = ',' ∨ c = '\n')) (hrest : sepHead rest) :
    parseUnquoted (w ++ rest) = (w, rest) := by
  induction w with
  | nil =>
    rcases hrest with h0 | ⟨c, cs, rfl, hc⟩
    · subst h0
      simp [parseUnquoted]
    · simp [parseUnquoted, hc]
  | cons x w2 ih =>
    have hx : ¬(x = ',' ∨ x = '\n') := hw x (List.mem_cons_self x w2)
    have ih2 := ih (fun c hc => hw c (List.mem_cons_of_mem x hc))
    rw [List.cons_append, parseUnquoted.eq_def]
    simp only [hx, if_neg, if_false]
    simp [ih2]

theorem fieldEnc_renderCell (v : CellV) :
    FieldEnc (renderCell v) (cellToString v).data := by
  intro rest hrest
  cases v with
  | vnull =>
    rcases hrest with h0 | ⟨c, cs, rfl, hc⟩
    · subst h0
      simp [renderCell, cellToString, parseField, parseUnquoted]
    · have hcq : c ≠ '"' := by rcases hc with rfl | rfl <;> decide
      show parseField (c :: cs) = _
      rw [parseField.eq_def]
      split
      · rename_i cs2 heq
        injection heq with h1 h2
        exact absurd h1 hcq
      · simp [parseUnquoted, hc, cellToString]
  | vstr s =>
    show parseField ('"' :: (csvEscapeList s.data ++ ['"']) ++ rest) = _
    have hshape : ('"' :: (csvEscapeList s.data ++ ['"']) ++ rest) =
        '"' :: (csvEscapeList s.data ++ '"' :: rest) := by
      simp
    rw [hshape]
    have hpf : parseField ('"' :: (csvEscapeList s.data ++ '"' :: rest)) =
        parseQuoted [] (csvEscapeList s.data ++ '"' :: rest) := rfl
    rw [hpf, parseQuoted_escape s.data [] rest hrest]
    simp [cellToString]
  | vint n =>
    show parseField ('"' :: (csvEscapeList (toString n).data ++ ['"']) ++ rest) = _
    have hshape : ('"' :: (csvEscapeList (toString n).data ++ ['"']) ++ rest) =
        '"' :: (csvEscapeList (toString n).data ++ '"' :: rest) := by
      simp
    rw [hshape]
    have hpf : parseField ('"' :: (csvEscapeList (toString n).data ++ '"' :: rest)) =
        parseQuoted [] (csvEscapeList (toString n).data ++ '"' :: rest) := rfl
    rw [hpf, parseQuoted_escape (toString n).data [] rest hrest]
    simp [cellToString]

theorem fieldEnc_simple (w : List Char)
    (hw : ∀ c ∈ w, ¬(c = ',' ∨ c = '\n') ∧ c ≠ '"') : FieldEnc w w := by
  intro rest hrest
  cases w with
  | nil =>
    rcases hrest with h0 | ⟨c, cs, rfl, hc⟩
    · subst h0
      simp [parseField, parseUnquoted]
    · have hcq : c ≠ '"' := by rcases hc with rfl | rfl <;> decide
      show parseField (c :: cs) = _
      rw [parseField.eq_def]
      split
      · rename_i cs2 heq
        injection heq with h1 h2
        exact absurd h1 hcq
      · simp [parseUnquoted, hc]
  | cons x w2 =>
    have hxq : x ≠ '"' := (hw x (List.mem_cons_self x w2)).2
    rw [List.cons_append, parseField.eq_def]
    split
    · rename_i cs2 heq
      injection heq with h1 h2
      exact absurd h1 hxq
    · rename_i heq
      rw [← List.cons_append]
      exact parseUnquoted_simple (x :: w2) rest (fun c hc => (hw c hc).1) hrest

theorem parseRecord_enc : ∀ (ps : List (List Char × List Char)), ps ≠ [] →
    (∀ p ∈ ps, FieldEnc p.1 p.2) → ∀ fuel, ps.length ≤ fuel →
    (∀ next, parseRecord fuel (joinChars [','] (ps.map (fun r => r.1)) ++ '\n' :: next)
      = (ps.map (fun r => r.2), next)) ∧
    (parseRecord fuel (joinChars [','] (ps.map (fun r => r.1))) = (ps.map (fun r => r.2), []))
  | [], hne, _, _, _ => absurd rfl hne
  | [p], _, henc, fuel, hfuel => by
    cases fuel with
    | zero => simp at hfuel
    | succ f =>
      constructor
      · intro next
        have hpf := henc p (by simp) ('\n' :: next) (Or.inr ⟨'\n', next, rfl, Or.inr rfl⟩)
        show parseRecord (f + 1) (joinChars [','] ([p].map (fun r => r.1)) ++ '\n' :: next)
          = ([p].map (fun r => r.2), next)
        have hj : joinChars [','] ([p].map (fun r => r.1)) = p.1 := rfl
        rw [hj, parseRecord.eq_def]
        simp [hpf]
      · have hpf := henc p (by simp) [] (Or.inl rfl)
        rw [List.append_nil] at hpf
        show parseRecord (f + 1) (joinChars [','] ([p].map (fun r => r.1)))
          = ([p].map (fun r => r.2), [])
        have hj : joinChars [','] ([p].map (fun r => r.1)) = p.1 := rfl
        rw [hj, parseRecord.eq_def]
        simp [hpf]
  | p :: q :: ps3, _, henc, fuel, hfuel => by
    cases fuel with
    | zero => simp at hfuel
    | succ f =>
      have hlen : (q :: ps3).length ≤ f := by
        simp only [List.length_cons] at hfuel ⊢
        omega
      have hrec := parseRecord_enc (q :: ps3) (by simp)
        (fun r hr => henc r (List.mem_cons_of_mem p hr)) f hlen
      have hjoin : joinChars [','] ((p :: q :: ps3).map (fun r => r.1)) =
          p.1 ++ [','] ++ joinChars [','] ((q :: ps3).map (fun r => r.1)) := rfl
      constructor
      · intro next
        have hpf := henc p (by simp)
          (',' :: (joinChars [','] ((q :: ps3).map (fun r => r.1)) ++ '\n' :: next))
          (Or.inr ⟨',', _, rfl, Or.inl rfl⟩)
        have hshape : joinChars [','] ((p :: q :: ps3).map (fun r => r.1)) ++ '\n' :: next =
            p.1 ++ (',' :: (joinChars [','] ((q :: ps3).map (fun r => r.1)) ++ '\n' :: next)) := by
          rw [hjoin]
          simp [List.append_assoc]
        rw [hshape, parseRecord.eq_def]
        have hr1 := hrec.1 next
        simp only [List.map_cons] at hpf hr1 ⊢
        simp [hpf, hr1]
      · have hpf := henc p (by simp)
          (',' :: joinChars [','] ((q :: ps3).map (fun r => r.1)))
          (Or.inr ⟨',', _, rfl, Or.inl rfl⟩)
        have hshape : joinChars [','] ((p :: q :: ps3).map (fun r => r.1)) =
            p.1 ++ (',' :: joinChars [','] ((q :: ps3).map (fun r => r.1))) := by
          rw [hjoin]
          simp [List.append_assoc]
        rw [hshape, parseRecord.eq_def]
        have hr2 := hrec.2
        simp only [List.map_cons] at hpf hr2 ⊢
        simp [hpf, hr2]

theorem joinChars_length_ge (sep : List Char) (hsep : 1 ≤ sep.length) :
    ∀ xs : List (List Char), xs.length ≤ (joinChars sep xs).length + 1
  | [] => by simp
  | [x] => by simp [joinChars]
  | x :: y :: t => by
    have ih := joinChars_length_ge sep hsep (y :: t)
    have hj : joinChars sep (x :: y :: t) = x ++ sep ++ joinChars sep (y :: t) := rfl
    rw [hj]
    simp only [List.length_append, List.length_cons] at ih ⊢
    omega

theorem parseCsvRecords_nil (fuel : Nat) : parseCsvRecords fuel [] = [] := by
  cases fuel <;> rfl

theorem parseCsvRecords_cons (fuel : Nat) (c : Char) (cs : List Char) :
    parseCsvRecords (fuel + 1) (c :: cs) =
      (parseRecord ((c :: cs).length + 1) (c :: cs)).1 ::
        parseCsvRecords fuel (parseRecord ((c :: cs).length + 1) (c :: cs)).2 := rfl

theorem parseCsvRecords_enc : ∀ (lineList : List (List (List Char × List Char))),
    (∀ ps ∈ lineList, ps ≠ []) →
    (∀ ps ∈ lineList, ∀ p ∈ ps, FieldEnc p.1 p.2) →
    (∀ ps ∈ lineList, joinChars [','] (ps.map (fun r => r.1)) ≠ []) →
    ∀ fuel, lineList.length ≤ fuel →
    parseCsvRecords fuel
      (joinChars ['\n'] (lineList.map (fun ps => joinChars [','] (ps.map (fun r => r.1)))))
      = lineList.map (fun ps => ps.map (fun r => r.2))
  | [], _, _, _, fuel, _ => by simp [joinChars, parseCsvRecords_nil]
  | [ps], hne, henc, hjne, fuel, hfuel => by
    cases fuel with
    | zero => simp at hfuel
    | succ f =>
      have hline : joinChars ['\n']
          ([ps].map (fun ps => joinChars [','] (ps.map (fun r => r.1)))) =
          joinChars [','] (ps.map (fun r => r.1)) := rfl
      rw [hline]
      cases hL : joinChars [','] (ps.map (fun r => r.1)) with
      | nil => exact absurd hL (hjne ps (by simp))
      | cons c cs =>
        rw [parseCsvRecords_cons]
        have hfl : ps.length ≤ (c :: cs).length + 1 := by
          have hlg := joinChars_length_ge [','] (by decide) (ps.map (fun r => r.1))
          rw [hL] at hlg
          simpa using hlg
        have hrec := (parseRecord_enc ps (hne ps (by simp)) (henc ps (by simp))
          ((c :: cs).length + 1) hfl).2
        rw [hL] at hrec
        rw [hrec]
        simp [parseCsvRecords_nil]
  | ps :: qs :: t, hne, henc, hjne, fuel, hfuel => by
    cases fuel with
    | zero => simp at hfuel
    | succ f =>
      have htext : joinChars ['\n']
          ((ps :: qs :: t).map (fun ps => joinChars [','] (ps.map (fun r => r.1)))) =
          joinChars [','] (ps.map (fun r => r.1)) ++ '\n' ::
            joinChars ['\n'] ((qs :: t).map (fun ps => joinChars [','] (ps.map (fun r => r.1)))) := by
      
        have h0 : joinChars ['\n']
            ((ps :: qs :: t).map (fun ps => joinChars [','] (ps.map (fun r => r.1)))) =
            joinChars [','] (ps.map (fun r => r.1)) ++ ['\n'] ++
              joinChars ['\n'] ((qs :: t).map (fun ps => joinChars [','] (ps.map (fun r => r.1)))) := rfl
        rw [h0]
        simp [List.append_assoc]
      rw [htext]
      cases hL : joinChars [','] (ps.map (fun r => r.1)) with
      | nil => exact absurd hL (hjne ps (by simp))
      | cons c l1 =>
        have hshape : (c :: l1) ++ '\n' ::
            joinChars ['\n'] ((qs :: t).map (fun ps => joinChars [','] (ps.map (fun r => r.1)))) =
            c :: (l1 ++ '\n' ::
              joinChars ['\n'] ((qs :: t).map (fun ps => joinChars [','] (ps.map (fun r => r.1))))) := rfl
        rw [hshape, parseCsvRecords_cons]
        have hfl : ps.length ≤ (c :: (l1 ++ '\n' ::
            joinChars ['\n'] ((qs :: t).map (fun ps => joinChars [','] (ps.map (fun r => r.1)))))).length + 1 := by
          have hlg := joinChars_length_ge [','] (by decide) (ps.map (fun r => r.1))
          rw [hL] at hlg
          simp only [List.length_cons, List.length_map, List.length_append] at hlg ⊢
          omega
        have hrec := (parseRecord_enc ps (hne ps (by simp)) (henc ps (by simp))
          ((c :: (l1 ++ '\n' ::
            joinChars ['\n'] ((qs :: t).map (fun ps => joinChars [','] (ps.map (fun r => r.1)))))).length + 1)
          hfl).1
          (joinChars ['\n'] ((qs :: t).map (fun ps => joinChars [','] (ps.map (fun r => r.1)))))
        rw [hL] at hrec
        rw [show (c :: l1) ++ '\n' ::
            joinChars ['\n'] ((qs :: t).map (fun ps => joinChars [','] (ps.map (fun r => r.1)))) =
            c :: (l1 ++ '\n' ::
              joinChars ['\n'] ((qs :: t).map (fun ps => joinChars [','] (ps.map (fun r => r.1))))) from rfl] at hrec
        rw [hrec]
        have hih := parseCsvRecords_enc (qs :: t)
          (fun x hx => hne x (List.mem_cons_of_mem ps hx))
          (fun x hx => henc x (List.mem_cons_of_mem ps hx))
          (fun x hx => hjne x (List.mem_cons_of_mem ps hx)) f
          (by simp only [List.length_cons] at hfuel ⊢; omega)
        rw [hih]
        simp

theorem strMk_data (s : String) : (⟨s.data⟩ : String) = s := rfl

theorem rowPS_ne_nil {r : List CellV} (h : r.length = applicationColumns.length) :
    rowPS r ≠ [] := by
  intro hc
  have : r = [] := by
    cases r with
    | nil => rfl
    | cons a b => simp [rowPS] at hc
  rw [this] at h
  simp [applicationColumns] at h

theorem rowJoin_ne_nil {r : List CellV} (h : r.length = applicationColumns.length) :
    joinChars [','] ((rowPS r).map (fun p => p.1)) ≠ [] := by
  intro hc
  have hlg := joinChars_length_ge [','] (by decide) ((rowPS r).map (fun p => p.1))
  rw [hc] at hlg
  simp only [List.length_map, List.length_nil, rowPS] at hlg
  rw [h] at hlg
  simp [applicationColumns] at hlg

/-- CLAIM C9 (amended): for any nonempty set of rows of the `applications`
table, the CSV export has one data line per row in which every NON-NULL field
is quoted with internal quotes doubled (protecting embedded commas and
newlines), while null fields export as unquoted empty text; re-parsing with
standard CSV rules therefore recovers, for each record and field, the STRING
rendering of the JSON export's value — `String(value)` for non-null values and
`""` for null — rather than the value itself. -/
theorem c9_csv_export_round_trip (rows : List (List CellV)) (hne : rows ≠ [])
    (hlen : ∀ r ∈ rows, r.length = applicationColumns.length) :
    parseCsvStandard (exportCsv applicationColumns rows)
      = applicationColumns :: rows.map (fun r => r.map cellToString) := by
  have htext : (exportCsv applicationColumns rows).data =
      joinChars ['\n'] ((headerPS :: rows.map rowPS).map
        (fun ps => joinChars [','] (ps.map (fun p => p.1)))) := by
    simp only [exportCsv, if_neg hne]
    congr 1
    simp only [List.map_cons, List.map_map, headerPS, rowPS]
    congr 1
    simp [Function.comp, rowPS, List.map_map]
    intro a ha
    rfl
  have hlines_ne : ∀ ps ∈ headerPS :: rows.map rowPS, ps ≠ [] := by
    intro ps hps
    rcases List.mem_cons.mp hps with rfl | hmem
    · simp [headerPS, applicationColumns]
    · obtain ⟨r, hr, rfl⟩ := List.mem_map.mp hmem
      exact rowPS_ne_nil (hlen r hr)
  have hcols_simple : ∀ h ∈ applicationColumns, ∀ c ∈ h.data,
      ¬(c = ',' ∨ c = '\n') ∧ c ≠ '"' := by decide
  have hlines_enc : ∀ ps ∈ headerPS :: rows.map rowPS, ∀ p ∈ ps, FieldEnc p.1 p.2 := by
    intro ps hps p hp
    rcases List.mem_cons.mp hps with rfl | hmem
    · obtain ⟨h, hh, rfl⟩ := List.mem_map.mp hp
      exact fieldEnc_simple h.data (hcols_simple h hh)
    · obtain ⟨r, _, rfl⟩ := List.mem_map.mp hmem
      obtain ⟨v, _, rfl⟩ := List.mem_map.mp hp
      exact fieldEnc_renderCell v
  have hlines_join : ∀ ps ∈ headerPS :: rows.map rowPS,
      joinChars [','] (ps.map (fun p => p.1)) ≠ [] := by
    intro ps hps
    rcases List.mem_cons.mp hps with rfl | hmem
    · decide
    · obtain ⟨r, hr, rfl⟩ := List.mem_map.mp hmem
      exact rowJoin_ne_nil (hlen r hr)
  have hfuel : (headerPS :: rows.map rowPS).length ≤
      (exportCsv applicationColumns rows).data.length + 1 := by
    rw [htext]
    have hlg := joinChars_length_ge ['\n'] (by decide)
      ((headerPS :: rows.map rowPS).map (fun ps => joinChars [','] (ps.map (fun p => p.1))))
    simpa using hlg
  have hparse := parseCsvRecords_enc (headerPS :: rows.map rowPS) hlines_ne hlines_enc
    hlines_join ((exportCsv applicationColumns rows).data.length + 1) hfuel
  have hdata_ne : (exportCsv applicationColumns rows).data ≠ [] := by
    rw [htext]
    cases rows with
    | nil => exact absurd rfl hne
    | cons r rest =>
      intro hc
      have hlg := joinChars_length_ge ['\n'] (by decide)
        ((headerPS :: (r :: rest).map rowPS).map
          (fun ps => joinChars [','] (ps.map (fun p => p.1))))
      rw [hc] at hlg
      simp at hlg
  unfold parseCsvStandard
  rw [if_neg hdata_ne]
  rw [htext] at hparse ⊢
  rw [hparse]
  simp only [List.map_cons, List.map_map, headerPS, rowPS]
  simp [Function.comp, List.map_map, strMk_data]
  refine ⟨List.map_id _, fun a ha => ?_⟩
  simp only [rowPS, List.map_map]
  rfl

set_option maxRecDepth 8192 in
/-- CLAIM C9 could not be confirmed as stated: NULL column values export as
UNQUOTED empty fields (visible as adjacent commas in the CSV text), and
re-parsing returns the empty string where the JSON export holds `null` (and the
string "1" where JSON holds the integer id), so the re-parsed values are not
the JSON values. -/
theorem c9_counterexample :
    containsSub (exportCsv applicationColumns [c9Row]) ",," = true ∧
    ¬ csvJsonRoundTripsExactly [c9Row] ∧
    (((parseCsvStandard (exportCsv applicationColumns [c9Row])).drop 1).headD []).getD 4 "?"
      = "" ∧
    ((exportJson [c9Row]).headD []).getD 4 (CellV.vstr "?") = CellV.vnull :=
  ⟨by decide, by unfold csvJsonRoundTripsExactly; decide, by decide, by decide⟩

/-- Witness for C9 (amended) at a row full of quotes, commas and newlines. -/
theorem c9_witness :
    parseCsvStandard (exportCsv applicationColumns
        [List.replicate 20 (CellV.vstr "a,b\"c\nd")])
      = applicationColumns ::
        [List.replicate 20 (CellV.vstr "a,b\"c\nd")].map (fun r => r.map cellToString) :=
  c9_csv_export_round_trip [List.replicate 20 (CellV.vstr "a,b\"c\nd")]
    (by decide) (by decide)

